import Mathlib

/-! # storehouse: storage_backend.cpp

A shallow embedding of `src/storehouse/storage_backend.cpp` and the properties
proved about it.

Conventions of the embedding.

* A stateful collaborator whose method is called repeatedly with the same
  arguments (the backend's file-creation methods, `rand()`) is given by the
  sequence of answers it makes to successive calls.
* Everything a function does besides computing its return value (backend
  calls, `rand()` draws, log lines, sleeps) is recorded in a `Trace`.
* `exit` does not return: a run ends either by returning to the caller or by
  leaving the process, see `Outcome`.
* A `while (true)` loop takes a bound on the number of iterations it may
  make; `none` means the bound was reached before the loop was left.
* `size_t` and `uint64_t` are 64 bits wide; sums computed in them are taken
  modulo `2 ^ 64`.
* An exception that is not caught ends the call it leaves: such a call
  yields `Thrown.threw`, and nothing after the throwing statement is done.
-/

namespace storehouse

/-! ## Result taxonomy -/

/-- The enumerators of `enum class StoreResult`. -/
inductive StoreResult where
  | Success
  | FileExists
  | FileDoesNotExist
  | EndOfFile
  | TransientFailure
  deriving DecidableEq, Repr

/-- The function `StoreResultToString`. A value of the C++ type `StoreResult`
is a value of its underlying integer type, and the enumerators are five
constants of that type. Their numeric values are fixed by the header
`storage_backend.h`; here they are the parameter `value`. The `switch`
compares `result` with each `case` label in turn and falls through to the
final `return` when none matches. -/
def StoreResultToString (value : StoreResult → Int) (result : Int) : String :=
  if result = value .Success then "Success"
  else if result = value .FileExists then "FileExists"
  else if result = value .FileDoesNotExist then "FileDoesNotExist"
  else if result = value .EndOfFile then "EndOfFile"
  else if result = value .TransientFailure then "TransientFailure"
  else "<Undefined>"

/-- Enumerator values when the header numbers them in declaration order
from zero, the default of a C++ enumeration. -/
def StoreResult.declOrder : StoreResult → Int
  | .Success => 0
  | .FileExists => 1
  | .FileDoesNotExist => 2
  | .EndOfFile => 3
  | .TransientFailure => 4

/-! ## Effects -/

/-- A line handed to the logging collaborator. `LOG` is taken to write the
line and return, so that the `exit` following `LOG(FATAL)` is what ends the
process. -/
inductive LogLine where
  /-- The line `LOG(WARNING) << "Transient failure for " << name
  << ", sleeping for " << sleep_time << "."`. -/
  | warning (name : String) (sleep_time : ℚ)
  /-- The line `LOG(FATAL) << "Reached max backoff for " << name << "."`. -/
  | fatal (name : String)
  deriving DecidableEq

/-- What a run of a retry wrapper has done so far. -/
structure Trace where
  /-- Number of calls made to the wrapped operation: the backend's
  file-creation method, or the expression given to `EXP_BACKOFF`. -/
  calls : Nat
  /-- Number of calls made to `rand()`. -/
  draws : Nat
  /-- The values of `sleep_time` slept, in seconds, oldest first; `usleep`
  receives `sleep_time * 1000000`. -/
  sleeps : List ℚ
  /-- Log lines written, oldest first. -/
  log : List LogLine
  deriving DecidableEq

/-- Nothing done yet. -/
def Trace.init : Trace := ⟨0, 0, [], []⟩

/-- How a run ends: the function returns `result` with `file` holding the
pointer it was reset to, or the process is left through `exit(status)`. -/
inductive Outcome (α : Type) where
  | returned (result : StoreResult) (file : α)
  | exited (status : Nat)
  deriving DecidableEq

/-! ## Retry wrappers -/

/-- A storage backend as far as the wrappers use it. The answer to the
`i`-th call (counted from zero) of `make_random_read_file(name, ptr)` is
`make_random_read_file name i`: the result code and the value `ptr` holds
after the call. Likewise for `make_write_file`. -/
structure StorageBackend (R W : Type) where
  make_random_read_file : String → Nat → StoreResult × R
  make_write_file : String → Nat → StoreResult × W

/-- The `while (true)` loop of `make_unique_random_read_file`, entered with
the given `sleep_debt` and trace. `rand i` is the value of the `i`-th call
of `rand()`; `RAND_MAX` is the constant of `<cstdlib>`. The division is the
exact quotient. -/
def make_unique_random_read_file_loop {R W : Type} (storage : StorageBackend R W)
    (name : String) (rand : Nat → Nat) (RAND_MAX : Nat) :
    Nat → Int → Trace → Option (Outcome R × Trace)
  | 0, _, _ => none
  | fuel + 1, sleep_debt, t =>
    let (result, ptr) := storage.make_random_read_file name t.calls
    let t := { t with calls := t.calls + 1 }
    if result = StoreResult.TransientFailure then
      let sleep_time : ℚ := (sleep_debt : ℚ) + (rand t.draws : ℚ) / (RAND_MAX : ℚ)
      let t := { t with draws := t.draws + 1 }
      if sleep_debt < 64 then
        let sleep_debt := sleep_debt * 2
        let t := { t with log := t.log ++ [LogLine.warning name sleep_time] }
        let t := { t with sleeps := t.sleeps ++ [sleep_time] }
        make_unique_random_read_file_loop storage name rand RAND_MAX fuel sleep_debt t
      else
        some (Outcome.exited 1, { t with log := t.log ++ [LogLine.fatal name] })
    else
      some (Outcome.returned result ptr, t)

/-- The function `make_unique_random_read_file`: `sleep_debt` starts at 1. -/
def make_unique_random_read_file {R W : Type} (fuel : Nat) (storage : StorageBackend R W)
    (name : String) (rand : Nat → Nat) (RAND_MAX : Nat) : Option (Outcome R × Trace) :=
  make_unique_random_read_file_loop storage name rand RAND_MAX fuel 1 Trace.init

/-- The `while (true)` loop of `make_unique_write_file`. -/
def make_unique_write_file_loop {R W : Type} (storage : StorageBackend R W)
    (name : String) (rand : Nat → Nat) (RAND_MAX : Nat) :
    Nat → Int → Trace → Option (Outcome W × Trace)
  | 0, _, _ => none
  | fuel + 1, sleep_debt, t =>
    let (result, ptr) := storage.make_write_file name t.calls
    let t := { t with calls := t.calls + 1 }
    if result = StoreResult.TransientFailure then
      let sleep_time : ℚ := (sleep_debt : ℚ) + (rand t.draws : ℚ) / (RAND_MAX : ℚ)
      let t := { t with draws := t.draws + 1 }
      if sleep_debt < 64 then
        let sleep_debt := sleep_debt * 2
        let t := { t with log := t.log ++ [LogLine.warning name sleep_time] }
        let t := { t with sleeps := t.sleeps ++ [sleep_time] }
        make_unique_write_file_loop storage name rand RAND_MAX fuel sleep_debt t
      else
        some (Outcome.exited 1, { t with log := t.log ++ [LogLine.fatal name] })
    else
      some (Outcome.returned result ptr, t)

/-- The function `make_unique_write_file`: `sleep_debt` starts at 1. -/
def make_unique_write_file {R W : Type} (fuel : Nat) (storage : StorageBackend R W)
    (name : String) (rand : Nat → Nat) (RAND_MAX : Nat) : Option (Outcome W × Trace) :=
  make_unique_write_file_loop storage name rand RAND_MAX fuel 1 Trace.init

/-! ## Byte buffers and read handles -/

/-- One `char` of a `std::vector<char>`. -/
abbrev Byte := Fin 256

/-- Number of values of `size_t` and of `uint64_t`. -/
def SIZE_MOD : Nat := 2 ^ 64

/-- The vector after a call `v.resize(n)` of `std::vector<char>` that does
not throw: the first `n` elements are kept, and elements added to reach
length `n` are zero. -/
def resize (v : List Byte) (n : Nat) : List Byte :=
  v.take n ++ List.replicate (n - v.length) 0

/-- The value of `max_size()` of a `std::vector<char>`: `PTRDIFF_MAX`, with
`size_t` 64 bits wide. -/
def VECTOR_MAX_SIZE : Nat := 2 ^ 63 - 1

/-- The exceptions that `std::vector<char>::resize` throws. -/
inductive VectorError where
  | length_error
  | bad_alloc
  deriving DecidableEq, Repr

/-- How a call that may throw ends: it returns a value, or an exception
leaves it and the call does not return. -/
inductive Thrown (α : Type) where
  | returned (value : α)
  | threw (e : VectorError)
  deriving DecidableEq

/-- The call `v.resize(n)` of `std::vector<char>` with its failures. A
length above `max_size()` throws `std::length_error`. Growing the vector
asks the allocator for storage; `can_allocate n` tells whether storage for
`n` elements is granted, and `std::bad_alloc` is thrown when it is not.
Otherwise the vector becomes `resize v n`. -/
def vector_resize (can_allocate : Nat → Bool) (v : List Byte) (n : Nat) :
    Thrown (List Byte) :=
  if VECTOR_MAX_SIZE < n then Thrown.threw VectorError.length_error
  else if v.length < n ∧ can_allocate n = false then Thrown.threw VectorError.bad_alloc
  else Thrown.returned (resize v n)

/-- A read handle with internal state `σ`. Its field `read` is the virtual
method `read(offset, size, data, size_read)`. The destination pointer `data`
is given by the buffer `mem` it points into and the index `dst` of the
pointed-to element. The call yields the result code, the buffer afterwards,
the value stored in `size_read`, and the state of the handle afterwards. -/
structure RandomReadFile (σ : Type) where
  read : σ → (offset : Nat) → (size : Nat) → (mem : List Byte) → (dst : Nat) →
    (StoreResult × List Byte × Nat) × σ

/-- The overload `RandomReadFile::read(offset, size, std::vector<char> &data)`.
It returns the result code, the vector afterwards and the state of the
handle afterwards, unless one of its two calls of `resize` throws: the
exception is not caught, so it leaves the overload, and when it comes from
the first `resize` the raw read is not made. `can_allocate` is the allocator
as in `vector_resize`. -/
def RandomReadFile.read_vector {σ : Type} (can_allocate : Nat → Bool)
    (file : RandomReadFile σ) (s : σ) (offset size : Nat) (data : List Byte) :
    Thrown ((StoreResult × List Byte) × σ) :=
  let orig_data_size := data.length
  match vector_resize can_allocate data ((orig_data_size + size) % SIZE_MOD) with
  | Thrown.threw e => Thrown.threw e
  | Thrown.returned data =>
    let ((result, data, size_read), s) := file.read s offset size data orig_data_size
    match vector_resize can_allocate data ((orig_data_size + size_read) % SIZE_MOD) with
    | Thrown.threw e => Thrown.threw e
    | Thrown.returned data => Thrown.returned ((result, data), s)

/-- Modelled from the spec: the macro `EXP_BACKOFF(expression, status)` of
`storehouse/util.h`, which is not among the sources. Section 4.6 of the
specification gives one algorithm for both wrapped call shapes: a debt
starting at 1, the operation retried while it yields `TransientFailure`,
a sleep of debt plus jitter followed by doubling while the debt is below 64,
and a fatal exit otherwise. `expression` is the wrapped expression as a
transformer of the program state `S` it touches, yielding the result code
and a payload; `name` is how the log lines name the resource. The loop is
entered with the given debt. -/
def EXP_BACKOFF {S β : Type} (expression : S → (StoreResult × β) × S)
    (name : String) (rand : Nat → Nat) (RAND_MAX : Nat) :
    Nat → Int → S → Trace → Option (Outcome (β × S) × Trace)
  | 0, _, _, _ => none
  | fuel + 1, sleep_debt, s, t =>
    let ((result, payload), s) := expression s
    let t := { t with calls := t.calls + 1 }
    if result = StoreResult.TransientFailure then
      let sleep_time : ℚ := (sleep_debt : ℚ) + (rand t.draws : ℚ) / (RAND_MAX : ℚ)
      let t := { t with draws := t.draws + 1 }
      if sleep_debt < 64 then
        let sleep_debt := sleep_debt * 2
        let t := { t with log := t.log ++ [LogLine.warning name sleep_time] }
        let t := { t with sleeps := t.sleeps ++ [sleep_time] }
        EXP_BACKOFF expression name rand RAND_MAX fuel sleep_debt s t
      else
        some (Outcome.exited 1, { t with log := t.log ++ [LogLine.fatal name] })
    else
      some (Outcome.returned result (payload, s), t)

/-! ## Whole-file read -/

/-- The constant `READ_SIZE` of `read_entire_file`. -/
def READ_SIZE : Nat := 1024 * 1024

/-- How a run of `read_entire_file` ends: it returns the vector `bytes` with
the reference argument `pos` left at the given value, or the process is left
through `exit(status)` inside `EXP_BACKOFF`, or the `assert` fails. -/
inductive ReadOutcome where
  | returned (bytes : List Byte) (pos : Nat)
  | exited (status : Nat)
  | assert_failed
  deriving DecidableEq

/-- The expression `file->read(pos, READ_SIZE, bytes.data() + prev_size,
size_read)` that `read_entire_file` hands to `EXP_BACKOFF`: it acts on the
state of the handle and on `bytes`, and its payload is `size_read`. -/
def read_chunk {σ : Type} (file : RandomReadFile σ) (pos prev_size : Nat) :
    σ × List Byte → (StoreResult × Nat) × (σ × List Byte) :=
  fun (s, bytes) =>
    let ((result, bytes, size_read), s) := file.read s pos READ_SIZE bytes prev_size
    ((result, size_read), (s, bytes))

/-- The `while (true)` loop of `read_entire_file`, entered with the given
state of the handle, `bytes`, `pos` and trace. `retry_fuel` bounds each run
of `EXP_BACKOFF`. -/
def read_entire_file_loop {σ : Type} (file : RandomReadFile σ) (name : String)
    (rand : Nat → Nat) (RAND_MAX : Nat) (retry_fuel : Nat) :
    Nat → σ → List Byte → Nat → Trace → Option (ReadOutcome × Trace)
  | 0, _, _, _, _ => none
  | fuel + 1, s, bytes, pos, t =>
    let prev_size := bytes.length
    let bytes := resize bytes ((bytes.length + READ_SIZE) % SIZE_MOD)
    match EXP_BACKOFF (read_chunk file pos prev_size) name rand RAND_MAX retry_fuel 1
        (s, bytes) t with
    | none => none
    | some (Outcome.exited status, t) => some (ReadOutcome.exited status, t)
    | some (Outcome.returned result (size_read, (s, bytes)), t) =>
      if result = StoreResult.Success ∨ result = StoreResult.EndOfFile then
        let pos := (pos + size_read) % SIZE_MOD
        if result = StoreResult.EndOfFile then
          let bytes := resize bytes ((prev_size + size_read) % SIZE_MOD)
          some (ReadOutcome.returned bytes pos, t)
        else
          read_entire_file_loop file name rand RAND_MAX retry_fuel fuel s bytes pos t
      else
        some (ReadOutcome.assert_failed, t)

/-- The function `read_entire_file(file, pos)`: `bytes` starts empty. -/
def read_entire_file {σ : Type} (fuel : Nat) (file : RandomReadFile σ) (s : σ)
    (pos : Nat) (name : String) (rand : Nat → Nat) (RAND_MAX : Nat) :
    Option (ReadOutcome × Trace) :=
  read_entire_file_loop file name rand RAND_MAX fuel fuel s [] pos Trace.init

/-! ## Reference objects used in the statements and proofs

None of the following is program text. -/

/-- The retry loop over an arbitrary sequence `resp` of answers: the common
shape of the two wrapper loops, which are shown equal to it below. -/
def retryLoop {α : Type} (resp : Nat → StoreResult × α) (name : String)
    (rand : Nat → Nat) (RAND_MAX : Nat) : Nat → Int → Trace → Option (Outcome α × Trace)
  | 0, _, _ => none
  | fuel + 1, sleep_debt, t =>
    if (resp t.calls).1 = StoreResult.TransientFailure then
      if sleep_debt < 64 then
        retryLoop resp name rand RAND_MAX fuel (sleep_debt * 2)
          { calls := t.calls + 1, draws := t.draws + 1,
            sleeps := t.sleeps ++ [(sleep_debt : ℚ) + (rand t.draws : ℚ) / (RAND_MAX : ℚ)],
            log := t.log ++
              [LogLine.warning name ((sleep_debt : ℚ) + (rand t.draws : ℚ) / (RAND_MAX : ℚ))] }
      else
        some (Outcome.exited 1,
          { calls := t.calls + 1, draws := t.draws + 1, sleeps := t.sleeps,
            log := t.log ++ [LogLine.fatal name] })
    else
      some (Outcome.returned (resp t.calls).1 (resp t.calls).2,
        { calls := t.calls + 1, draws := t.draws, sleeps := t.sleeps, log := t.log })

/-- The jitter term of the `i`-th draw, `rand() / RAND_MAX` as a rational. -/
def jitter (rand : Nat → Nat) (RAND_MAX : Nat) (i : Nat) : ℚ :=
  (rand i : ℚ) / (RAND_MAX : ℚ)

/-- The sleep times of `k` consecutive transient failures counted from the
start of a wrapper: the `i`-th is `2 ^ i` plus the `i`-th jitter term. -/
def sleepSeq (rand : Nat → Nat) (RAND_MAX : Nat) (k : Nat) : List ℚ :=
  (List.range k).map fun i => (2 : ℚ) ^ i + jitter rand RAND_MAX i

/-- The trace of a wrapper after `k` transient failures, each followed by a
sleep: `k` calls, `k` draws, `k` sleeps and `k` warnings. -/
def afterFailures (name : String) (rand : Nat → Nat) (RAND_MAX : Nat) (k : Nat) : Trace :=
  { calls := k, draws := k, sleeps := sleepSeq rand RAND_MAX k,
    log := (sleepSeq rand RAND_MAX k).map (LogLine.warning name) }

/-- A simulated backend whose file-creation calls fail transiently exactly
`k` times and then succeed; the handle produced by call `i` is `i`. -/
def flakyBackend (k : Nat) : StorageBackend Nat Nat where
  make_random_read_file := fun _ i =>
    (if i < k then StoreResult.TransientFailure else StoreResult.Success, i)
  make_write_file := fun _ i =>
    (if i < k then StoreResult.TransientFailure else StoreResult.Success, i)

/-- A simulated backend whose file-creation calls all answer `r`; the handle
produced by call `i` is `i`. -/
def constBackend (r : StoreResult) : StorageBackend Nat Nat where
  make_random_read_file := fun _ i => (r, i)
  make_write_file := fun _ i => (r, i)

/-- A value of `RAND_MAX`, that of glibc. -/
def RAND_MAX_glibc : Nat := 2147483647

/-- A random source whose every draw is the largest value `rand()` may
return. -/
def maxDraws : Nat → Nat := fun _ => RAND_MAX_glibc

/-- A random source within `0 .. RAND_MAX_glibc` with varying draws. -/
def someDraws : Nat → Nat := fun i => (i * 1000003) % (RAND_MAX_glibc + 1)

/-- The buffer `mem'` differs from `mem` at most at the `size` positions
starting at `dst`: a write that stays inside the destination region. -/
def WritesWithin (mem mem' : List Byte) (dst size : Nat) : Prop :=
  mem'.length = mem.length ∧ mem'.take dst = mem.take dst ∧
    mem'.drop (dst + size) = mem.drop (dst + size)

/-- The buffer `mem` after `src` is copied to the positions starting at
`dst`; a copy that would not fit is not made. -/
def writeAt (mem : List Byte) (dst : Nat) (src : List Byte) : List Byte :=
  if dst + src.length ≤ mem.length then
    mem.take dst ++ src ++ mem.drop (dst + src.length)
  else mem

/-- A simulated read handle over the file `content`, following the raw-read
contract of the specification: a range within the file is read in full with
`Success`, and a range crossing the end of the file yields the bytes up to
the end with `EndOfFile`. It never fails transiently and has no state. -/
def memFile (content : List Byte) : RandomReadFile Unit where
  read := fun s offset size mem dst =>
    if offset + size ≤ content.length then
      ((StoreResult.Success, writeAt mem dst ((content.drop offset).take size), size), s)
    else
      ((StoreResult.EndOfFile, writeAt mem dst (content.drop offset),
        content.length - offset), s)

/-- A configuration object as `make_from_config` can tell it apart by
`dynamic_cast`: a `GCSConfig` with content `G`, a `PosixConfig` with content
`P`, or an object of any other class derived from `StorageConfig`, with
content `O`. The classes themselves are declared in headers that are not
among the sources. -/
inductive StorageConfig (G P O : Type) where
  | GCSConfig (c : G)
  | PosixConfig (c : P)
  | other (c : O)

/-- A backend object created by `new`: `GCSStorage(config)` or
`PosixStorage(config)`. The constructors are declared in headers that are
not among the sources; the object is given by the class and the
configuration it was constructed from. -/
inductive BackendObject (G P : Type) where
  | GCSStorage (config : G)
  | PosixStorage (config : P)

/-- The cast `dynamic_cast<const GCSConfig *>(config)`; `none` is the null
pointer, as argument and as result. -/
def dynamic_cast_GCSConfig {G P O : Type} : Option (StorageConfig G P O) → Option G
  | some (StorageConfig.GCSConfig c) => some c
  | _ => none

/-- The cast `dynamic_cast<const PosixConfig *>(config)`. -/
def dynamic_cast_PosixConfig {G P O : Type} : Option (StorageConfig G P O) → Option P
  | some (StorageConfig.PosixConfig c) => some c
  | _ => none

/-- The function `StorageBackend::make_from_config`; `none` is `nullptr`. -/
def StorageBackend.make_from_config {G P O : Type} (config : Option (StorageConfig G P O)) :
    Option (BackendObject G P) :=
  match dynamic_cast_GCSConfig config with
  | some gcs_config => some (BackendObject.GCSStorage gcs_config)
  | none =>
    match dynamic_cast_PosixConfig config with
    | some d_config => some (BackendObject.PosixStorage d_config)
    | none => none

/-- A write handle with internal state `σ`. Its field `append` is the
virtual method `append(size, data)`; the pointer `data` is given by the bytes
stored from it on. The call yields the result code and the state of the
handle afterwards. -/
structure WriteFile (σ : Type) where
  append : σ → (size : Nat) → (data : List Byte) → StoreResult × σ

/-- The overload `WriteFile::append(const std::vector<char> &data)`. -/
def WriteFile.append_vector {σ : Type} (file : WriteFile σ) (s : σ) (data : List Byte) :
    StoreResult × σ :=
  file.append s data.length data

/-- How a call of `exit_on_error` ends: it returns, or it writes the line
`log` through `LOG(FATAL)` and leaves the process through
`std::exit(status)`. -/
inductive ExitOutcome where
  | returned
  | exited (log : String) (status : Nat)
  deriving DecidableEq

/-- The function `exit_on_error`. As in `StoreResultToString`, `result` is a
value of the underlying type and `value` gives the enumerators;
`EXIT_FAILURE` is the constant of `<cstdlib>`. -/
def exit_on_error (value : StoreResult → Int) (EXIT_FAILURE : Nat) (result : Int) :
    ExitOutcome :=
  if result = value StoreResult.Success then ExitOutcome.returned
  else
    ExitOutcome.exited
      ("Exiting due to failed operation result: " ++ StoreResultToString value result ++ ".")
      EXIT_FAILURE

/-! ## Further reference objects

None of the following is program text. -/

/-- A simulated write handle that accepts every append and whose state is
the list of the raw calls made on it, oldest first. -/
def recordingFile : WriteFile (List (Nat × List Byte)) where
  append := fun calls size data => (StoreResult.Success, calls ++ [(size, data)])

/-- An outcome without the pointer: the result code returned, or the exit
status. -/
def Outcome.code {α : Type} : Outcome α → Outcome Unit
  | Outcome.returned result _ => Outcome.returned result ()
  | Outcome.exited status => Outcome.exited status

/-- One pass through the body of the retry loop from the loop head with debt
`sleep_debt` and trace `t`: either the loop head is reached again, with a new
debt and trace, or the run ends. -/
def retryStep {α : Type} (resp : Nat → StoreResult × α) (name : String)
    (rand : Nat → Nat) (RAND_MAX : Nat) (sleep_debt : Int) (t : Trace) :
    (Int × Trace) ⊕ (Outcome α × Trace) :=
  if (resp t.calls).1 = StoreResult.TransientFailure then
    if sleep_debt < 64 then
      Sum.inl (sleep_debt * 2,
        { calls := t.calls + 1, draws := t.draws + 1,
          sleeps := t.sleeps ++ [(sleep_debt : ℚ) + (rand t.draws : ℚ) / (RAND_MAX : ℚ)],
          log := t.log ++
            [LogLine.warning name ((sleep_debt : ℚ) + (rand t.draws : ℚ) / (RAND_MAX : ℚ))] })
    else
      Sum.inr (Outcome.exited 1,
        { calls := t.calls + 1, draws := t.draws + 1, sleeps := t.sleeps,
          log := t.log ++ [LogLine.fatal name] })
  else
    Sum.inr (Outcome.returned (resp t.calls).1 (resp t.calls).2,
      { calls := t.calls + 1, draws := t.draws, sleeps := t.sleeps, log := t.log })

/-- The states in which a wrapper can be at the head of its loop: the
initial one, with debt 1 and nothing done, and every state that one pass
through the body leads to from such a state. -/
inductive LoopHead {α : Type} (resp : Nat → StoreResult × α) (name : String)
    (rand : Nat → Nat) (RAND_MAX : Nat) : Int → Trace → Prop where
  | start : LoopHead resp name rand RAND_MAX 1 Trace.init
  | again {d d' : Int} {t t' : Trace} :
      LoopHead resp name rand RAND_MAX d t →
      retryStep resp name rand RAND_MAX d t = Sum.inl (d', t') →
      LoopHead resp name rand RAND_MAX d' t'

/-- An allocator that grants every request. -/
def alwaysAllocates : Nat → Bool := fun _ => true

/-- An allocator that grants storage for at most 1000 elements. -/
def smallAllocator : Nat → Bool := fun n => decide (n ≤ 1000)

/-- A simulated read handle whose every raw read answers `r`, writes nothing
and reports 0 bytes. -/
def constFile (r : StoreResult) : RandomReadFile Unit where
  read := fun s _ _ mem _ => ((r, mem, 0), s)

/-! ## Result taxonomy -/

theorem declOrder_injective : Function.Injective StoreResult.declOrder := by
  intro a b h
  cases a <;> cases b <;> first | rfl | (simp [StoreResult.declOrder] at h)

/-- C9: whatever distinct values the header gives the five enumerators,
`StoreResultToString` returns for each of them a label that is not empty,
namely its name, and different enumerators get different labels. -/
theorem StoreResultToString_labels (value : StoreResult → Int)
    (hvalue : Function.Injective value) :
    StoreResultToString value (value StoreResult.Success) = "Success" ∧
    StoreResultToString value (value StoreResult.FileExists) = "FileExists" ∧
    StoreResultToString value (value StoreResult.FileDoesNotExist) = "FileDoesNotExist" ∧
    StoreResultToString value (value StoreResult.EndOfFile) = "EndOfFile" ∧
    StoreResultToString value (value StoreResult.TransientFailure) = "TransientFailure" ∧
    (∀ r, StoreResultToString value (value r) ≠ "") ∧
    (∀ r₁ r₂, StoreResultToString value (value r₁) = StoreResultToString value (value r₂) →
      r₁ = r₂) := by
  have hS : StoreResultToString value (value StoreResult.Success) = "Success" := by
    simp [StoreResultToString]
  have hX : StoreResultToString value (value StoreResult.FileExists) = "FileExists" := by
    simp [StoreResultToString, hvalue.eq_iff]
  have hD : StoreResultToString value (value StoreResult.FileDoesNotExist)
      = "FileDoesNotExist" := by
    simp [StoreResultToString, hvalue.eq_iff]
  have hE : StoreResultToString value (value StoreResult.EndOfFile) = "EndOfFile" := by
    simp [StoreResultToString, hvalue.eq_iff]
  have hT : StoreResultToString value (value StoreResult.TransientFailure)
      = "TransientFailure" := by
    simp [StoreResultToString, hvalue.eq_iff]
  refine ⟨hS, hX, hD, hE, hT, ?_, ?_⟩
  · intro r
    cases r
    · rw [hS]; decide
    · rw [hX]; decide
    · rw [hD]; decide
    · rw [hE]; decide
    · rw [hT]; decide
  · intro r₁ r₂ h
    cases r₁ <;> cases r₂ <;> first
      | rfl
      | (simp only [hS, hX, hD, hE, hT] at h; exact absurd h (by decide))

/-- C9, with the enumerators numbered in declaration order. -/
theorem StoreResultToString_labels_witness :
    Function.Injective StoreResult.declOrder ∧
    StoreResultToString StoreResult.declOrder 3 = "EndOfFile" ∧
    (∀ r, StoreResultToString StoreResult.declOrder (StoreResult.declOrder r) ≠ "") ∧
    (∀ r₁ r₂, StoreResultToString StoreResult.declOrder (StoreResult.declOrder r₁)
        = StoreResultToString StoreResult.declOrder (StoreResult.declOrder r₂) → r₁ = r₂) :=
  ⟨declOrder_injective,
   (StoreResultToString_labels StoreResult.declOrder declOrder_injective).2.2.2.1,
   (StoreResultToString_labels StoreResult.declOrder declOrder_injective).2.2.2.2.2.1,
   (StoreResultToString_labels StoreResult.declOrder declOrder_injective).2.2.2.2.2.2⟩

/-- C10: `StoreResultToString` is defined on every value of the underlying
type. On a value that is none of the five enumerators it returns the label
`<Undefined>`, and that label is returned for no enumerator. -/
theorem StoreResultToString_undefined (value : StoreResult → Int)
    (hvalue : Function.Injective value) :
    (∀ code : Int, (∀ r, code ≠ value r) →
      StoreResultToString value code = "<Undefined>") ∧
    (∀ r, StoreResultToString value (value r) ≠ "<Undefined>") := by
  constructor
  · intro code h
    simp [StoreResultToString, h]
  · intro r
    cases r <;> simp [StoreResultToString, hvalue.eq_iff]

/-- C10, with the enumerators numbered in declaration order, at the values
5 and -1. -/
theorem StoreResultToString_undefined_witness :
    Function.Injective StoreResult.declOrder ∧
    StoreResultToString StoreResult.declOrder 5 = "<Undefined>" ∧
    StoreResultToString StoreResult.declOrder (-1) = "<Undefined>" ∧
    (∀ r, StoreResultToString StoreResult.declOrder (StoreResult.declOrder r)
      ≠ "<Undefined>") :=
  ⟨declOrder_injective,
   (StoreResultToString_undefined StoreResult.declOrder declOrder_injective).1 5
     (fun r => by cases r <;> decide),
   (StoreResultToString_undefined StoreResult.declOrder declOrder_injective).1 (-1)
     (fun r => by cases r <;> decide),
   (StoreResultToString_undefined StoreResult.declOrder declOrder_injective).2⟩

/-! ## The wrapper loops and the reference loop -/

theorem read_loop_eq_retryLoop {R W : Type} (storage : StorageBackend R W) (name : String)
    (rand : Nat → Nat) (RAND_MAX : Nat) (fuel : Nat) (d : Int) (t : Trace) :
    make_unique_random_read_file_loop storage name rand RAND_MAX fuel d t
      = retryLoop (storage.make_random_read_file name) name rand RAND_MAX fuel d t := by
  induction fuel generalizing d t with
  | zero => rfl
  | succ n ih =>
    simp only [make_unique_random_read_file_loop, retryLoop]
    split_ifs <;> first | rfl | exact ih _ _

theorem write_loop_eq_retryLoop {R W : Type} (storage : StorageBackend R W) (name : String)
    (rand : Nat → Nat) (RAND_MAX : Nat) (fuel : Nat) (d : Int) (t : Trace) :
    make_unique_write_file_loop storage name rand RAND_MAX fuel d t
      = retryLoop (storage.make_write_file name) name rand RAND_MAX fuel d t := by
  induction fuel generalizing d t with
  | zero => rfl
  | succ n ih =>
    simp only [make_unique_write_file_loop, retryLoop]
    split_ifs <;> first | rfl | exact ih _ _

theorem sleepSeq_succ (rand : Nat → Nat) (RAND_MAX k : Nat) :
    sleepSeq rand RAND_MAX (k + 1)
      = sleepSeq rand RAND_MAX k ++ [(2 : ℚ) ^ k + jitter rand RAND_MAX k] := by
  simp [sleepSeq, List.range_succ]

theorem sleepSeq_length (rand : Nat → Nat) (RAND_MAX k : Nat) :
    (sleepSeq rand RAND_MAX k).length = k := by
  simp [sleepSeq]

theorem sleepSeq_getElem (rand : Nat → Nat) (RAND_MAX k i : Nat)
    (h : i < (sleepSeq rand RAND_MAX k).length) :
    (sleepSeq rand RAND_MAX k)[i] = (2 : ℚ) ^ i + jitter rand RAND_MAX i := by
  simp [sleepSeq]

/-- After `k ≤ 6` transient failures the loop is back at its head with debt
`2 ^ k` and the trace `afterFailures k`. -/
theorem retryLoop_failures {α : Type} (resp : Nat → StoreResult × α) (name : String)
    (rand : Nat → Nat) (RAND_MAX : Nat) (k : Nat) (hk : k ≤ 6)
    (hfail : ∀ i, i < k → (resp i).1 = StoreResult.TransientFailure) (fuel : Nat) :
    retryLoop resp name rand RAND_MAX (fuel + k) 1 Trace.init
      = retryLoop resp name rand RAND_MAX fuel (2 ^ k) (afterFailures name rand RAND_MAX k) := by
  induction k generalizing fuel with
  | zero => simp [afterFailures, sleepSeq, Trace.init]
  | succ k ih =>
    have h1 := ih (by omega) (fun i hi => hfail i (by omega)) (fuel + 1)
    have h2 : fuel + (k + 1) = fuel + 1 + k := by omega
    rw [h2, h1]
    have hlt : (2 : Int) ^ k < 64 := by
      have : k ≤ 5 := by omega
      interval_cases k <;> norm_num
    have hres := hfail k (by omega)
    simp only [retryLoop, afterFailures, hres, hlt, if_true]
    have e1 : (2 : Int) ^ k * 2 = 2 ^ (k + 1) := by ring
    rw [e1]
    congr 1
    simp [sleepSeq_succ, jitter]

/-- A failure at the loop head reached after `k` failures, when `resp k` is
not transient: the loop returns that answer without drawing or sleeping. -/
theorem retryLoop_return {α : Type} (resp : Nat → StoreResult × α) (name : String)
    (rand : Nat → Nat) (RAND_MAX : Nat) (k : Nat) (d : Int)
    (hres : (resp k).1 ≠ StoreResult.TransientFailure) (fuel : Nat) :
    retryLoop resp name rand RAND_MAX (fuel + 1) d (afterFailures name rand RAND_MAX k)
      = some (Outcome.returned (resp k).1 (resp k).2,
          { calls := k + 1, draws := k, sleeps := sleepSeq rand RAND_MAX k,
            log := (sleepSeq rand RAND_MAX k).map (LogLine.warning name) }) := by
  simp [retryLoop, afterFailures, hres]

/-- A transient failure at the loop head with debt 64 leaves the process:
one more call, one more draw, a fatal log line, and no sleep. -/
theorem retryLoop_exit {α : Type} (resp : Nat → StoreResult × α) (name : String)
    (rand : Nat → Nat) (RAND_MAX : Nat) (k : Nat)
    (hres : (resp k).1 = StoreResult.TransientFailure) (fuel : Nat) :
    retryLoop resp name rand RAND_MAX (fuel + 1) 64 (afterFailures name rand RAND_MAX k)
      = some (Outcome.exited 1,
          { calls := k + 1, draws := k + 1, sleeps := sleepSeq rand RAND_MAX k,
            log := (sleepSeq rand RAND_MAX k).map (LogLine.warning name)
              ++ [LogLine.fatal name] }) := by
  simp [retryLoop, afterFailures, hres]

/-- Every run with at least seven iterations allowed: for some `k ≤ 6` the
first `k` answers are transient failures, the loop head is reached with debt
`2 ^ k`, and there either answer `k` is returned or, when `k = 6`, a seventh
transient failure leaves the process. -/
theorem retryLoop_run {α : Type} (resp : Nat → StoreResult × α) (name : String)
    (rand : Nat → Nat) (RAND_MAX : Nat) (fuel : Nat) (hfuel : 7 ≤ fuel) :
    ∃ k, k ≤ 6 ∧ (∀ i, i < k → (resp i).1 = StoreResult.TransientFailure) ∧
      retryLoop resp name rand RAND_MAX fuel 1 Trace.init
        = retryLoop resp name rand RAND_MAX (fuel - k) (2 ^ k)
            (afterFailures name rand RAND_MAX k) ∧
      (((resp k).1 ≠ StoreResult.TransientFailure ∧
          retryLoop resp name rand RAND_MAX fuel 1 Trace.init
            = some (Outcome.returned (resp k).1 (resp k).2,
                { calls := k + 1, draws := k, sleeps := sleepSeq rand RAND_MAX k,
                  log := (sleepSeq rand RAND_MAX k).map (LogLine.warning name) })) ∨
        (k = 6 ∧ (resp k).1 = StoreResult.TransientFailure ∧
          retryLoop resp name rand RAND_MAX fuel 1 Trace.init
            = some (Outcome.exited 1,
                { calls := k + 1, draws := k + 1, sleeps := sleepSeq rand RAND_MAX k,
                  log := (sleepSeq rand RAND_MAX k).map (LogLine.warning name)
                    ++ [LogLine.fatal name] }))) := by
  have key : ∀ k, k ≤ 6 → (∀ i, i < k → (resp i).1 = StoreResult.TransientFailure) →
      retryLoop resp name rand RAND_MAX fuel 1 Trace.init
        = retryLoop resp name rand RAND_MAX (fuel - k) (2 ^ k)
            (afterFailures name rand RAND_MAX k) := by
    intro k hk hf
    have h := retryLoop_failures resp name rand RAND_MAX k hk hf (fuel - k)
    have e : fuel - k + k = fuel := by omega
    rw [e] at h
    exact h
  by_cases h : ∃ i, (resp i).1 ≠ StoreResult.TransientFailure ∧ i ≤ 6
  · have hspec := Nat.find_spec h
    have hmin : ∀ i, i < Nat.find h → (resp i).1 = StoreResult.TransientFailure := by
      intro i hi
      have hn := Nat.find_min h hi
      by_contra hc
      exact hn ⟨hc, by omega⟩
    refine ⟨Nat.find h, hspec.2, hmin, key _ hspec.2 hmin, Or.inl ⟨hspec.1, ?_⟩⟩
    rw [key _ hspec.2 hmin]
    have e : fuel - Nat.find h = (fuel - Nat.find h - 1) + 1 := by omega
    rw [e]
    exact retryLoop_return resp name rand RAND_MAX _ _ hspec.1 _
  · have hall : ∀ i, i ≤ 6 → (resp i).1 = StoreResult.TransientFailure := by
      intro i hi
      by_contra hc
      exact h ⟨i, hc, hi⟩
    have hf : ∀ i, i < 6 → (resp i).1 = StoreResult.TransientFailure :=
      fun i hi => hall i (by omega)
    refine ⟨6, le_refl _, hf, key 6 (le_refl _) hf, Or.inr ⟨rfl, hall 6 (le_refl _), ?_⟩⟩
    rw [key 6 (le_refl _) hf]
    have e : fuel - 6 = (fuel - 6 - 1) + 1 := by omega
    rw [e]
    exact retryLoop_exit resp name rand RAND_MAX 6 (hall 6 (le_refl _)) _

theorem jitter_nonneg (rand : Nat → Nat) (RAND_MAX i : Nat) :
    0 ≤ jitter rand RAND_MAX i := by
  unfold jitter
  positivity

theorem jitter_le_one (rand : Nat → Nat) (RAND_MAX : Nat)
    (hrand : ∀ i, rand i ≤ RAND_MAX) (i : Nat) : jitter rand RAND_MAX i ≤ 1 := by
  unfold jitter
  rcases Nat.eq_zero_or_pos RAND_MAX with h0 | hpos
  · simp [h0]
  · have hq : (0 : ℚ) < RAND_MAX := by exact_mod_cast hpos
    rw [div_le_one hq]
    exact_mod_cast hrand i

/-- Sleep times of consecutive failures never decrease, when every draw is
at most `RAND_MAX`. -/
theorem sleepSeq_sorted (rand : Nat → Nat) (RAND_MAX : Nat)
    (hrand : ∀ i, rand i ≤ RAND_MAX) (k : Nat) :
    List.Sorted (· ≤ ·) (sleepSeq rand RAND_MAX k) := by
  unfold List.Sorted
  rw [List.pairwise_iff_getElem]
  intro i j hi hj hij
  rw [sleepSeq_getElem, sleepSeq_getElem]
  have h1 := jitter_le_one rand RAND_MAX hrand i
  have h2 := jitter_nonneg rand RAND_MAX j
  have h3 : (2 : ℚ) ^ (i + 1) ≤ 2 ^ j :=
    pow_le_pow_right₀ (by norm_num) (by omega)
  have h4 : (1 : ℚ) ≤ 2 ^ i := one_le_pow₀ (by norm_num)
  have h5 : (2 : ℚ) ^ (i + 1) = 2 ^ i * 2 := pow_succ 2 i
  linarith

theorem read_eq_retryLoop {R W : Type} (storage : StorageBackend R W) (name : String)
    (rand : Nat → Nat) (RAND_MAX : Nat) (fuel : Nat) :
    make_unique_random_read_file fuel storage name rand RAND_MAX
      = retryLoop (storage.make_random_read_file name) name rand RAND_MAX fuel 1 Trace.init :=
  read_loop_eq_retryLoop storage name rand RAND_MAX fuel 1 Trace.init

theorem write_eq_retryLoop {R W : Type} (storage : StorageBackend R W) (name : String)
    (rand : Nat → Nat) (RAND_MAX : Nat) (fuel : Nat) :
    make_unique_write_file fuel storage name rand RAND_MAX
      = retryLoop (storage.make_write_file name) name rand RAND_MAX fuel 1 Trace.init :=
  write_loop_eq_retryLoop storage name rand RAND_MAX fuel 1 Trace.init

theorem someDraws_le (i : Nat) : someDraws i ≤ RAND_MAX_glibc := by
  unfold someDraws
  have h : (i * 1000003) % (RAND_MAX_glibc + 1) < RAND_MAX_glibc + 1 :=
    Nat.mod_lt _ (Nat.succ_pos RAND_MAX_glibc)
  omega

/-! ## Retry wrappers: terminal results -/

/-- C1: when the first file-creation call of the backend answers a result
other than `TransientFailure`, each wrapper calls the backend exactly once,
draws no random number, logs nothing, does not sleep, and returns exactly
that result together with the pointer of that call. -/
theorem wrapper_first_call_terminal {R W : Type} (storage : StorageBackend R W)
    (name : String) (rand : Nat → Nat) (RAND_MAX : Nat) (fuel : Nat) (hfuel : 0 < fuel) :
    ((storage.make_random_read_file name 0).1 ≠ StoreResult.TransientFailure →
      make_unique_random_read_file fuel storage name rand RAND_MAX
        = some (Outcome.returned (storage.make_random_read_file name 0).1
            (storage.make_random_read_file name 0).2,
            { calls := 1, draws := 0, sleeps := [], log := [] })) ∧
    ((storage.make_write_file name 0).1 ≠ StoreResult.TransientFailure →
      make_unique_write_file fuel storage name rand RAND_MAX
        = some (Outcome.returned (storage.make_write_file name 0).1
            (storage.make_write_file name 0).2,
            { calls := 1, draws := 0, sleeps := [], log := [] })) := by
  obtain ⟨n, rfl⟩ : ∃ n, fuel = n + 1 := ⟨fuel - 1, by omega⟩
  constructor
  · intro h
    rw [read_eq_retryLoop]
    simp [retryLoop, Trace.init, h]
  · intro h
    rw [write_eq_retryLoop]
    simp [retryLoop, Trace.init, h]

/-- C1, at a backend answering `FileExists` to every call. -/
theorem wrapper_first_call_terminal_witness :
    0 < 1 ∧
    make_unique_random_read_file 1 (constBackend StoreResult.FileExists) "a" someDraws
        RAND_MAX_glibc
      = some (Outcome.returned StoreResult.FileExists 0,
          { calls := 1, draws := 0, sleeps := [], log := [] }) ∧
    make_unique_write_file 1 (constBackend StoreResult.FileExists) "a" someDraws
        RAND_MAX_glibc
      = some (Outcome.returned StoreResult.FileExists 0,
          { calls := 1, draws := 0, sleeps := [], log := [] }) :=
  ⟨by decide,
   (wrapper_first_call_terminal (constBackend StoreResult.FileExists) "a" someDraws
      RAND_MAX_glibc 1 (by decide)).1 (by decide),
   (wrapper_first_call_terminal (constBackend StoreResult.FileExists) "a" someDraws
      RAND_MAX_glibc 1 (by decide)).2 (by decide)⟩

/-- C2: whatever the backend answers and whatever the draws, a wrapper
allowed at least seven iterations ends in one of two ways: it leaves the
process through `exit(1)`, or it returns a result that is not
`TransientFailure`. -/
theorem wrapper_never_returns_transient {R W : Type} (storage : StorageBackend R W)
    (name : String) (rand : Nat → Nat) (RAND_MAX : Nat) (fuel : Nat) (hfuel : 7 ≤ fuel) :
    (∃ out t, make_unique_random_read_file fuel storage name rand RAND_MAX = some (out, t) ∧
      (out = Outcome.exited 1 ∨
        ∃ r p, out = Outcome.returned r p ∧ r ≠ StoreResult.TransientFailure)) ∧
    (∃ out t, make_unique_write_file fuel storage name rand RAND_MAX = some (out, t) ∧
      (out = Outcome.exited 1 ∨
        ∃ r p, out = Outcome.returned r p ∧ r ≠ StoreResult.TransientFailure)) := by
  constructor
  · rw [read_eq_retryLoop]
    obtain ⟨k, -, -, -, h | h⟩ :=
      retryLoop_run (storage.make_random_read_file name) name rand RAND_MAX fuel hfuel
    · exact ⟨_, _, h.2, Or.inr ⟨_, _, rfl, h.1⟩⟩
    · exact ⟨_, _, h.2.2, Or.inl rfl⟩
  · rw [write_eq_retryLoop]
    obtain ⟨k, -, -, -, h | h⟩ :=
      retryLoop_run (storage.make_write_file name) name rand RAND_MAX fuel hfuel
    · exact ⟨_, _, h.2, Or.inr ⟨_, _, rfl, h.1⟩⟩
    · exact ⟨_, _, h.2.2, Or.inl rfl⟩

/-- C2, at a backend failing transiently twice before it succeeds. -/
theorem wrapper_never_returns_transient_witness :
    7 ≤ 7 ∧
    (∃ out t, make_unique_random_read_file 7 (flakyBackend 2) "a" someDraws RAND_MAX_glibc
        = some (out, t) ∧
      (out = Outcome.exited 1 ∨
        ∃ r p, out = Outcome.returned r p ∧ r ≠ StoreResult.TransientFailure)) ∧
    (∃ out t, make_unique_write_file 7 (flakyBackend 2) "a" someDraws RAND_MAX_glibc
        = some (out, t) ∧
      (out = Outcome.exited 1 ∨
        ∃ r p, out = Outcome.returned r p ∧ r ≠ StoreResult.TransientFailure)) :=
  ⟨by decide,
   wrapper_never_returns_transient (flakyBackend 2) "a" someDraws RAND_MAX_glibc 7 (by decide)⟩

/-! ## Retry wrappers: the backoff schedule -/

/-- C3: against a backend whose file-creation call always answers
`TransientFailure`, a wrapper allowed at least seven iterations does not run
on: after six failures, each followed by a sleep, it is at the loop head
with debt 64, and the seventh failure leaves the process through `exit(1)`.
Nothing is returned to the caller; the backend was called seven times, and
the sleeps are the six made before, none on the final failure. -/
theorem wrapper_always_transient_exits {R W : Type} (storage : StorageBackend R W)
    (name : String) (rand : Nat → Nat) (RAND_MAX : Nat) (fuel : Nat) (hfuel : 7 ≤ fuel) :
    ((∀ i, (storage.make_random_read_file name i).1 = StoreResult.TransientFailure) →
      make_unique_random_read_file fuel storage name rand RAND_MAX
          = make_unique_random_read_file_loop storage name rand RAND_MAX (fuel - 6) 64
              (afterFailures name rand RAND_MAX 6) ∧
      (afterFailures name rand RAND_MAX 6).sleeps.length = 6 ∧
      make_unique_random_read_file fuel storage name rand RAND_MAX
          = some (Outcome.exited 1,
              { calls := 7, draws := 7, sleeps := (afterFailures name rand RAND_MAX 6).sleeps,
                log := (afterFailures name rand RAND_MAX 6).log ++ [LogLine.fatal name] })) ∧
    ((∀ i, (storage.make_write_file name i).1 = StoreResult.TransientFailure) →
      make_unique_write_file fuel storage name rand RAND_MAX
          = make_unique_write_file_loop storage name rand RAND_MAX (fuel - 6) 64
              (afterFailures name rand RAND_MAX 6) ∧
      (afterFailures name rand RAND_MAX 6).sleeps.length = 6 ∧
      make_unique_write_file fuel storage name rand RAND_MAX
          = some (Outcome.exited 1,
              { calls := 7, draws := 7, sleeps := (afterFailures name rand RAND_MAX 6).sleeps,
                log := (afterFailures name rand RAND_MAX 6).log ++ [LogLine.fatal name] })) := by
  have e : fuel = (fuel - 6) + 6 := by omega
  have e1 : fuel - 6 = (fuel - 6 - 1) + 1 := by omega
  constructor
  · intro hall
    have h := retryLoop_failures (storage.make_random_read_file name) name rand RAND_MAX 6
      (le_refl _) (fun i _ => hall i) (fuel - 6)
    rw [← e] at h
    have hx := retryLoop_exit (storage.make_random_read_file name) name rand RAND_MAX 6
      (hall 6) (fuel - 6 - 1)
    rw [← e1] at hx
    refine ⟨?_, by simp [afterFailures, sleepSeq_length], ?_⟩
    · rw [read_eq_retryLoop, read_loop_eq_retryLoop, h]
      norm_num
    · rw [read_eq_retryLoop, h]
      norm_num
      rw [hx]
      simp [afterFailures]
  · intro hall
    have h := retryLoop_failures (storage.make_write_file name) name rand RAND_MAX 6
      (le_refl _) (fun i _ => hall i) (fuel - 6)
    rw [← e] at h
    have hx := retryLoop_exit (storage.make_write_file name) name rand RAND_MAX 6
      (hall 6) (fuel - 6 - 1)
    rw [← e1] at hx
    refine ⟨?_, by simp [afterFailures, sleepSeq_length], ?_⟩
    · rw [write_eq_retryLoop, write_loop_eq_retryLoop, h]
      norm_num
    · rw [write_eq_retryLoop, h]
      norm_num
      rw [hx]
      simp [afterFailures]

/-- C3, at a backend answering `TransientFailure` to every call. -/
theorem wrapper_always_transient_exits_witness :
    7 ≤ 9 ∧
    (∀ i, ((constBackend StoreResult.TransientFailure).make_random_read_file "a" i).1
      = StoreResult.TransientFailure) ∧
    (make_unique_random_read_file 9 (constBackend StoreResult.TransientFailure) "a" someDraws
          RAND_MAX_glibc
        = make_unique_random_read_file_loop (constBackend StoreResult.TransientFailure) "a"
            someDraws RAND_MAX_glibc (9 - 6) 64 (afterFailures "a" someDraws RAND_MAX_glibc 6) ∧
      (afterFailures "a" someDraws RAND_MAX_glibc 6).sleeps.length = 6 ∧
      make_unique_random_read_file 9 (constBackend StoreResult.TransientFailure) "a" someDraws
          RAND_MAX_glibc
        = some (Outcome.exited 1,
            { calls := 7, draws := 7,
              sleeps := (afterFailures "a" someDraws RAND_MAX_glibc 6).sleeps,
              log := (afterFailures "a" someDraws RAND_MAX_glibc 6).log
                ++ [LogLine.fatal "a"] })) :=
  ⟨by decide, fun _ => rfl,
   (wrapper_always_transient_exits (constBackend StoreResult.TransientFailure) "a" someDraws
      RAND_MAX_glibc 9 (by decide)).1 (fun _ => rfl)⟩

/-- C4: against a backend whose file-creation call answers
`TransientFailure` exactly `k` times, `k ≤ 6`, and then `Success`, each
wrapper returns `Success` with the pointer produced by the successful call,
after `k + 1` calls and exactly `k` sleeps. Whatever the draws within
`0 .. RAND_MAX`, the sleep times never decrease, and sleep `i` is at least
the debt `2 ^ i` in force before it. -/
theorem wrapper_flaky_then_success {R W : Type} (storage : StorageBackend R W)
    (name : String) (rand : Nat → Nat) (RAND_MAX : Nat) (k fuel : Nat) (hk : k ≤ 6)
    (hfuel : k + 1 ≤ fuel) (hrand : ∀ i, rand i ≤ RAND_MAX) :
    ((∀ i, i < k → (storage.make_random_read_file name i).1 = StoreResult.TransientFailure) →
      (storage.make_random_read_file name k).1 = StoreResult.Success →
      ∃ t, make_unique_random_read_file fuel storage name rand RAND_MAX
          = some (Outcome.returned StoreResult.Success
              (storage.make_random_read_file name k).2, t) ∧
        t.calls = k + 1 ∧ t.sleeps.length = k ∧ List.Sorted (· ≤ ·) t.sleeps ∧
        ∀ i (h : i < t.sleeps.length), (((2 : Int) ^ i : Int) : ℚ) ≤ t.sleeps[i]) ∧
    ((∀ i, i < k → (storage.make_write_file name i).1 = StoreResult.TransientFailure) →
      (storage.make_write_file name k).1 = StoreResult.Success →
      ∃ t, make_unique_write_file fuel storage name rand RAND_MAX
          = some (Outcome.returned StoreResult.Success
              (storage.make_write_file name k).2, t) ∧
        t.calls = k + 1 ∧ t.sleeps.length = k ∧ List.Sorted (· ≤ ·) t.sleeps ∧
        ∀ i (h : i < t.sleeps.length), (((2 : Int) ^ i : Int) : ℚ) ≤ t.sleeps[i]) := by
  have e : fuel = (fuel - k - 1) + 1 + k := by omega
  have gen : ∀ {α : Type} (resp : Nat → StoreResult × α),
      (∀ i, i < k → (resp i).1 = StoreResult.TransientFailure) →
      (resp k).1 = StoreResult.Success →
      ∃ t, retryLoop resp name rand RAND_MAX fuel 1 Trace.init
          = some (Outcome.returned StoreResult.Success (resp k).2, t) ∧
        t.calls = k + 1 ∧ t.sleeps.length = k ∧ List.Sorted (· ≤ ·) t.sleeps ∧
        ∀ i (h : i < t.sleeps.length), (((2 : Int) ^ i : Int) : ℚ) ≤ t.sleeps[i] := by
    intro α resp hfail hok
    have h := retryLoop_failures resp name rand RAND_MAX k hk hfail (fuel - k - 1 + 1)
    rw [← e] at h
    have hne : (resp k).1 ≠ StoreResult.TransientFailure := by rw [hok]; decide
    have hr := retryLoop_return resp name rand RAND_MAX k (2 ^ k) hne (fuel - k - 1)
    rw [hok] at hr
    refine ⟨_, h.trans hr, rfl, sleepSeq_length _ _ _, sleepSeq_sorted rand RAND_MAX hrand k, ?_⟩
    intro i hi
    have hj := jitter_nonneg rand RAND_MAX i
    simp only [sleepSeq_getElem]
    push_cast
    linarith
  constructor
  · intro hfail hok
    rw [read_eq_retryLoop]
    exact gen _ hfail hok
  · intro hfail hok
    rw [write_eq_retryLoop]
    exact gen _ hfail hok

/-- C4, at the backend failing three times before it succeeds. -/
theorem wrapper_flaky_then_success_witness :
    3 ≤ 6 ∧ 3 + 1 ≤ 4 ∧ (∀ i, someDraws i ≤ RAND_MAX_glibc) ∧
    (∀ i, i < 3 → ((flakyBackend 3).make_random_read_file "a" i).1
      = StoreResult.TransientFailure) ∧
    ((flakyBackend 3).make_random_read_file "a" 3).1 = StoreResult.Success ∧
    ∃ t, make_unique_random_read_file 4 (flakyBackend 3) "a" someDraws RAND_MAX_glibc
        = some (Outcome.returned StoreResult.Success
            ((flakyBackend 3).make_random_read_file "a" 3).2, t) ∧
      t.calls = 3 + 1 ∧ t.sleeps.length = 3 ∧ List.Sorted (· ≤ ·) t.sleeps ∧
      ∀ i (h : i < t.sleeps.length), (((2 : Int) ^ i : Int) : ℚ) ≤ t.sleeps[i] :=
  ⟨by decide, by decide, someDraws_le,
   fun i hi => by simp [flakyBackend, hi], by decide,
   (wrapper_flaky_then_success (flakyBackend 3) "a" someDraws RAND_MAX_glibc 3 4 (by decide)
      (by decide) someDraws_le).1
      (fun i hi => by simp [flakyBackend, hi]) (by decide)⟩

/-- C5, as stated, fails: when `rand()` returns `RAND_MAX` the jitter term is
exactly 1. Against the backend failing once, with debt 1 in force, the sleep
time is 2, which is not below debt plus one. -/
theorem sleep_time_below_next_unit_counterexample :
    make_unique_random_read_file 2 (flakyBackend 1) "a" maxDraws RAND_MAX_glibc
      = some (Outcome.returned StoreResult.Success 1,
          { calls := 2, draws := 1, sleeps := [2], log := [LogLine.warning "a" 2] }) ∧
    maxDraws 0 ≤ RAND_MAX_glibc ∧
    jitter maxDraws RAND_MAX_glibc 0 = 1 ∧
    ¬ ((2 : ℚ) < ((1 : Int) : ℚ) + 1) := by
  refine ⟨?_, le_refl _, ?_, by norm_num⟩
  · simp [make_unique_random_read_file, make_unique_random_read_file_loop, flakyBackend,
      Trace.init, maxDraws, RAND_MAX_glibc]
    norm_num
  · simp [jitter, maxDraws, RAND_MAX_glibc]

/-- C5, amended: in a wrapper allowed at least seven iterations, with every
draw within `0 .. RAND_MAX`, sleep `i` follows a transient failure observed
at the loop head with debt `2 ^ i`, and equals that debt plus the jitter term
`rand() / RAND_MAX` of draw `i`, which lies in the closed interval from 0
to 1: the sleep time is at least the debt and at most the debt plus one. -/
theorem sleep_time_within_unit {R W : Type} (storage : StorageBackend R W)
    (name : String) (rand : Nat → Nat) (RAND_MAX : Nat) (fuel : Nat) (hfuel : 7 ≤ fuel)
    (hrand : ∀ i, rand i ≤ RAND_MAX) :
    (∃ out t, make_unique_random_read_file fuel storage name rand RAND_MAX = some (out, t) ∧
      ∀ i (h : i < t.sleeps.length),
        (storage.make_random_read_file name i).1 = StoreResult.TransientFailure ∧
        make_unique_random_read_file fuel storage name rand RAND_MAX
          = make_unique_random_read_file_loop storage name rand RAND_MAX (fuel - i) (2 ^ i)
              (afterFailures name rand RAND_MAX i) ∧
        t.sleeps[i] = (((2 : Int) ^ i : Int) : ℚ) + jitter rand RAND_MAX i ∧
        0 ≤ jitter rand RAND_MAX i ∧ jitter rand RAND_MAX i ≤ 1 ∧
        (((2 : Int) ^ i : Int) : ℚ) ≤ t.sleeps[i] ∧
        t.sleeps[i] ≤ (((2 : Int) ^ i : Int) : ℚ) + 1) ∧
    (∃ out t, make_unique_write_file fuel storage name rand RAND_MAX = some (out, t) ∧
      ∀ i (h : i < t.sleeps.length),
        (storage.make_write_file name i).1 = StoreResult.TransientFailure ∧
        make_unique_write_file fuel storage name rand RAND_MAX
          = make_unique_write_file_loop storage name rand RAND_MAX (fuel - i) (2 ^ i)
              (afterFailures name rand RAND_MAX i) ∧
        t.sleeps[i] = (((2 : Int) ^ i : Int) : ℚ) + jitter rand RAND_MAX i ∧
        0 ≤ jitter rand RAND_MAX i ∧ jitter rand RAND_MAX i ≤ 1 ∧
        (((2 : Int) ^ i : Int) : ℚ) ≤ t.sleeps[i] ∧
        t.sleeps[i] ≤ (((2 : Int) ^ i : Int) : ℚ) + 1) := by
  have gen : ∀ {α : Type} (resp : Nat → StoreResult × α),
      ∃ out t, retryLoop resp name rand RAND_MAX fuel 1 Trace.init = some (out, t) ∧
        ∀ i (h : i < t.sleeps.length),
          (resp i).1 = StoreResult.TransientFailure ∧
          retryLoop resp name rand RAND_MAX fuel 1 Trace.init
            = retryLoop resp name rand RAND_MAX (fuel - i) (2 ^ i)
                (afterFailures name rand RAND_MAX i) ∧
          t.sleeps[i] = (((2 : Int) ^ i : Int) : ℚ) + jitter rand RAND_MAX i ∧
          0 ≤ jitter rand RAND_MAX i ∧ jitter rand RAND_MAX i ≤ 1 ∧
          (((2 : Int) ^ i : Int) : ℚ) ≤ t.sleeps[i] ∧
          t.sleeps[i] ≤ (((2 : Int) ^ i : Int) : ℚ) + 1 := by
    intro α resp
    obtain ⟨k, hk, hfail, -, hrun⟩ := retryLoop_run resp name rand RAND_MAX fuel hfuel
    have body : ∀ i (h : i < (sleepSeq rand RAND_MAX k).length),
        (resp i).1 = StoreResult.TransientFailure ∧
        retryLoop resp name rand RAND_MAX fuel 1 Trace.init
          = retryLoop resp name rand RAND_MAX (fuel - i) (2 ^ i)
              (afterFailures name rand RAND_MAX i) ∧
        (sleepSeq rand RAND_MAX k)[i] = (((2 : Int) ^ i : Int) : ℚ) + jitter rand RAND_MAX i ∧
        0 ≤ jitter rand RAND_MAX i ∧ jitter rand RAND_MAX i ≤ 1 ∧
        (((2 : Int) ^ i : Int) : ℚ) ≤ (sleepSeq rand RAND_MAX k)[i] ∧
        (sleepSeq rand RAND_MAX k)[i] ≤ (((2 : Int) ^ i : Int) : ℚ) + 1 := by
      intro i h
      have hik : i < k := by rw [sleepSeq_length] at h; exact h
      have h0 := jitter_nonneg rand RAND_MAX i
      have h1 := jitter_le_one rand RAND_MAX hrand i
      have hpre := retryLoop_failures resp name rand RAND_MAX i (by omega)
        (fun j hj => hfail j (by omega)) (fuel - i)
      have e : fuel - i + i = fuel := by omega
      rw [e] at hpre
      have hval : (sleepSeq rand RAND_MAX k)[i]
          = (((2 : Int) ^ i : Int) : ℚ) + jitter rand RAND_MAX i := by
        rw [sleepSeq_getElem]; push_cast; rfl
      refine ⟨hfail i hik, hpre, hval, h0, h1, ?_, ?_⟩
      · rw [hval]; linarith
      · rw [hval]; linarith
    rcases hrun with h | h
    · exact ⟨_, _, h.2, body⟩
    · exact ⟨_, _, h.2.2, body⟩
  constructor
  · simp only [read_eq_retryLoop, read_loop_eq_retryLoop]
    exact gen _
  · simp only [write_eq_retryLoop, write_loop_eq_retryLoop]
    exact gen _

/-- C5 amended, at the backend failing three times before it succeeds. -/
theorem sleep_time_within_unit_witness :
    7 ≤ 7 ∧ (∀ i, maxDraws i ≤ RAND_MAX_glibc) ∧
    ∃ out t, make_unique_random_read_file 7 (flakyBackend 3) "a" maxDraws RAND_MAX_glibc
        = some (out, t) ∧
      ∀ i (h : i < t.sleeps.length),
        ((flakyBackend 3).make_random_read_file "a" i).1 = StoreResult.TransientFailure ∧
        make_unique_random_read_file 7 (flakyBackend 3) "a" maxDraws RAND_MAX_glibc
          = make_unique_random_read_file_loop (flakyBackend 3) "a" maxDraws RAND_MAX_glibc
              (7 - i) (2 ^ i) (afterFailures "a" maxDraws RAND_MAX_glibc i) ∧
        t.sleeps[i] = (((2 : Int) ^ i : Int) : ℚ) + jitter maxDraws RAND_MAX_glibc i ∧
        0 ≤ jitter maxDraws RAND_MAX_glibc i ∧ jitter maxDraws RAND_MAX_glibc i ≤ 1 ∧
        (((2 : Int) ^ i : Int) : ℚ) ≤ t.sleeps[i] ∧
        t.sleeps[i] ≤ (((2 : Int) ^ i : Int) : ℚ) + 1 :=
  ⟨by decide, fun _ => le_refl _,
   (sleep_time_within_unit (flakyBackend 3) "a" maxDraws RAND_MAX_glibc 7 (by decide)
      (fun _ => le_refl _)).1⟩

/-! ## The buffer overload of `read` -/

theorem resize_length (v : List Byte) (n : Nat) : (resize v n).length = n := by
  simp only [resize, List.length_append, List.length_take, List.length_replicate]
  omega

theorem resize_grow (v : List Byte) (k : Nat) :
    resize v (v.length + k) = v ++ List.replicate k 0 := by
  simp [resize]

theorem resize_shrink (v : List Byte) (n : Nat) (h : n ≤ v.length) :
    resize v n = v.take n := by
  simp [resize, Nat.sub_eq_zero_of_le h]

/-- The second `resize` of the overload, after a raw read that left the
buffer as `mem'` and reported `size_read` bytes. -/
theorem resize_after_read (data mem' : List Byte) (size size_read : Nat)
    (hfit : data.length + size < SIZE_MOD) (hrep : size_read ≤ size)
    (hw : WritesWithin (resize data (data.length + size)) mem' data.length size) :
    (resize mem' ((data.length + size_read) % SIZE_MOD)).length = data.length + size_read ∧
    (resize mem' ((data.length + size_read) % SIZE_MOD)).take data.length = data ∧
    (resize mem' ((data.length + size_read) % SIZE_MOD)).drop data.length
      = (mem'.drop data.length).take size_read := by
  obtain ⟨hlen, hpre, -⟩ := hw
  rw [resize_length] at hlen
  have hmod2 : (data.length + size_read) % SIZE_MOD = data.length + size_read :=
    Nat.mod_eq_of_lt (by omega)
  rw [hmod2, resize_shrink _ _ (by omega)]
  have hpre' : mem'.take data.length = data := by
    rw [hpre, resize_grow]
    simp
  refine ⟨?_, ?_, ?_⟩
  · rw [List.length_take]; omega
  · rw [List.take_take, Nat.min_eq_left (by omega), hpre']
  · rw [List.drop_take]
    congr 1
    omega

theorem VECTOR_MAX_SIZE_lt : VECTOR_MAX_SIZE < SIZE_MOD := by decide

/-- A `resize` to a length within `max_size()` that shrinks the vector, or
for which the allocator grants the storage, does not throw. -/
theorem vector_resize_returned (can_allocate : Nat → Bool) (v : List Byte) (n : Nat)
    (hmax : n ≤ VECTOR_MAX_SIZE) (halloc : n ≤ v.length ∨ can_allocate n = true) :
    vector_resize can_allocate v n = Thrown.returned (resize v n) := by
  unfold vector_resize
  rw [if_neg (by omega)]
  rcases halloc with h | h
  · rw [if_neg (by omega)]
  · rw [if_neg (by simp [h])]

/-- C6, as stated, fails in two ways. When `orig_data_size + size` wraps
around in `size_t`: with a one-byte buffer and `size = 2 ^ 64 - 1` the first
`resize` is to length 0, which drops the byte already present; the raw read,
on an empty file, reports 0 bytes and writes nothing, so it meets the
conditions of the claim; the second `resize` is to length 1 and the byte
comes back as zero. When `orig_data_size + size` exceeds `max_size()`: with
the same buffer, `size = 2 ^ 63` and an allocator that grants everything,
the first `resize` throws `std::length_error` and the call does not
return. Nor does it return when the allocator refuses the storage for the
first `resize`, here 5001 elements with at most 1000 granted: `resize` throws
`std::bad_alloc`. -/
theorem read_vector_frame_counterexample :
    (memFile []).read_vector alwaysAllocates () 0 (2 ^ 64 - 1) [7]
      = Thrown.returned ((StoreResult.EndOfFile, [0]), ()) ∧
    vector_resize alwaysAllocates [7] ((([7] : List Byte).length + (2 ^ 64 - 1)) % SIZE_MOD)
      = Thrown.returned [] ∧
    (memFile []).read () 0 (2 ^ 64 - 1) [] 1 = ((StoreResult.EndOfFile, [], 0), ()) ∧
    0 ≤ 2 ^ 64 - 1 ∧
    WritesWithin [] [] 1 (2 ^ 64 - 1) ∧
    ¬ (([0] : List Byte).take 1 = [7]) ∧
    ([7] : List Byte).length + 2 ^ 63 < SIZE_MOD ∧
    (memFile []).read_vector alwaysAllocates () 0 (2 ^ 63) [7]
      = Thrown.threw VectorError.length_error ∧
    ([9] : List Byte).length + 5000 ≤ VECTOR_MAX_SIZE ∧
    (memFile [1, 2, 3]).read_vector smallAllocator () 1 5000 [9]
      = Thrown.threw VectorError.bad_alloc := by
  refine ⟨by decide, by decide, by decide, by decide, ?_, by decide, by decide, by decide,
    by decide, by decide⟩
  unfold WritesWithin
  decide

/-- C6, amended: when the first `resize` succeeds in growing the buffer by
`size` elements, that is when `orig_data_size + size` is at most
`max_size()`, so that it neither wraps around in `size_t` nor makes `resize`
throw `std::length_error`, and the allocator grants the storage, and when the
raw read reports `size_read ≤ size` and writes only inside the region of
`size` bytes added at the end of the buffer, then the call returns, and after
it the buffer has length `n + size_read`, its first `n` bytes are the
original buffer, the bytes after them are the first `size_read` bytes of the
region as the raw read left it, and the result code and the state of the
handle are those of the raw read. -/
theorem read_vector_frame {σ : Type} (can_allocate : Nat → Bool)
    (file : RandomReadFile σ) (s : σ) (offset size : Nat) (data : List Byte)
    (hfit : data.length + size ≤ VECTOR_MAX_SIZE)
    (halloc : can_allocate (data.length + size) = true)
    (hrep : (file.read s offset size
        (resize data (data.length + size)) data.length).1.2.2 ≤ size)
    (hw : WritesWithin (resize data (data.length + size))
        (file.read s offset size (resize data (data.length + size)) data.length).1.2.1
        data.length size) :
    ∃ out, file.read_vector can_allocate s offset size data
        = Thrown.returned
            (((file.read s offset size (resize data (data.length + size)) data.length).1.1,
              out),
             (file.read s offset size (resize data (data.length + size)) data.length).2) ∧
      out.length = data.length
        + (file.read s offset size (resize data (data.length + size)) data.length).1.2.2 ∧
      out.take data.length = data ∧
      out.drop data.length
        = ((file.read s offset size
            (resize data (data.length + size)) data.length).1.2.1.drop data.length).take
          (file.read s offset size (resize data (data.length + size)) data.length).1.2.2 := by
  have hM := VECTOR_MAX_SIZE_lt
  have hlt : data.length + size < SIZE_MOD := by omega
  have hmod : (data.length + size) % SIZE_MOD = data.length + size := Nat.mod_eq_of_lt hlt
  have h1 : vector_resize can_allocate data ((data.length + size) % SIZE_MOD)
      = Thrown.returned (resize data (data.length + size)) := by
    rw [hmod]
    exact vector_resize_returned can_allocate data _ hfit (Or.inr halloc)
  generalize hr : file.read s offset size (resize data (data.length + size)) data.length
    = r at hrep hw ⊢
  obtain ⟨⟨result, mem', size_read⟩, s'⟩ := r
  simp only at hrep hw ⊢
  have hlen : mem'.length = data.length + size := by
    rw [hw.1, resize_length]
  have hmod2 : (data.length + size_read) % SIZE_MOD = data.length + size_read :=
    Nat.mod_eq_of_lt (by omega)
  have h2 : vector_resize can_allocate mem' ((data.length + size_read) % SIZE_MOD)
      = Thrown.returned (resize mem' ((data.length + size_read) % SIZE_MOD)) := by
    apply vector_resize_returned
    · rw [hmod2]; omega
    · left; rw [hmod2]; omega
  obtain ⟨g1, g2, g3⟩ := resize_after_read data mem' size size_read hlt hrep hw
  refine ⟨resize mem' ((data.length + size_read) % SIZE_MOD), ?_, g1, g2, g3⟩
  simp only [RandomReadFile.read_vector, h1, hr, h2]

/-- C6 amended, at a one-byte buffer and a read of five bytes at offset 1 of
a three-byte file. -/
theorem read_vector_frame_witness :
    ([9] : List Byte).length + 5 ≤ VECTOR_MAX_SIZE ∧
    alwaysAllocates (([9] : List Byte).length + 5) = true ∧
    ((memFile [1, 2, 3]).read () 1 5 (resize [9] (([9] : List Byte).length + 5))
        ([9] : List Byte).length).1.2.2 ≤ 5 ∧
    (∃ out, (memFile [1, 2, 3]).read_vector alwaysAllocates () 1 5 [9]
        = Thrown.returned
            ((((memFile [1, 2, 3]).read () 1 5 (resize [9] (([9] : List Byte).length + 5))
                ([9] : List Byte).length).1.1, out),
             ((memFile [1, 2, 3]).read () 1 5 (resize [9] (([9] : List Byte).length + 5))
                ([9] : List Byte).length).2) ∧
      out.length = ([9] : List Byte).length
        + ((memFile [1, 2, 3]).read () 1 5 (resize [9] (([9] : List Byte).length + 5))
            ([9] : List Byte).length).1.2.2 ∧
      out.take ([9] : List Byte).length = [9] ∧
      out.drop ([9] : List Byte).length
        = (((memFile [1, 2, 3]).read () 1 5 (resize [9] (([9] : List Byte).length + 5))
            ([9] : List Byte).length).1.2.1.drop ([9] : List Byte).length).take
          ((memFile [1, 2, 3]).read () 1 5 (resize [9] (([9] : List Byte).length + 5))
            ([9] : List Byte).length).1.2.2) ∧
    (memFile [1, 2, 3]).read_vector alwaysAllocates () 1 5 [9]
      = Thrown.returned ((StoreResult.EndOfFile, [9, 2, 3]), ()) :=
  ⟨by decide, by decide, by decide,
   read_vector_frame alwaysAllocates (memFile [1, 2, 3]) () 1 5 [9] (by decide) (by decide)
     (by decide) (by unfold WritesWithin; decide),
   by decide⟩

/-! ## Whole-file read -/

/-- When the wrapped expression does not fail transiently, `EXP_BACKOFF`
evaluates it once and passes its result on. -/
theorem EXP_BACKOFF_first {S β : Type} (expression : S → (StoreResult × β) × S)
    (name : String) (rand : Nat → Nat) (RAND_MAX : Nat) (fuel : Nat) (d : Int) (s : S)
    (t : Trace) (h : (expression s).1.1 ≠ StoreResult.TransientFailure) :
    EXP_BACKOFF expression name rand RAND_MAX (fuel + 1) d s t
      = some (Outcome.returned (expression s).1.1 ((expression s).1.2, (expression s).2),
          { t with calls := t.calls + 1 }) := by
  simp [EXP_BACKOFF, h]

/-- One iteration of the loop of `read_entire_file`, given what `EXP_BACKOFF`
returned. -/
theorem read_entire_file_loop_succ {σ : Type} (file : RandomReadFile σ) (name : String)
    (rand : Nat → Nat) (RAND_MAX retry_fuel fuel : Nat) (s s' : σ) (bytes bytes' : List Byte)
    (pos size_read : Nat) (t t1 : Trace) (result : StoreResult)
    (h : EXP_BACKOFF (read_chunk file pos bytes.length) name rand RAND_MAX retry_fuel 1
        (s, resize bytes ((bytes.length + READ_SIZE) % SIZE_MOD)) t
      = some (Outcome.returned result (size_read, (s', bytes')), t1)) :
    read_entire_file_loop file name rand RAND_MAX retry_fuel (fuel + 1) s bytes pos t
      = if result = StoreResult.Success ∨ result = StoreResult.EndOfFile then
          if result = StoreResult.EndOfFile then
            some (ReadOutcome.returned (resize bytes' ((bytes.length + size_read) % SIZE_MOD))
              ((pos + size_read) % SIZE_MOD), t1)
          else
            read_entire_file_loop file name rand RAND_MAX retry_fuel fuel s' bytes'
              ((pos + size_read) % SIZE_MOD) t1
        else some (ReadOutcome.assert_failed, t1) := by
  simp only [read_entire_file_loop, h]

/-- C11: `make_from_config` returns a GCS backend constructed from the
configuration when the configuration is a `GCSConfig`, a Posix backend
constructed from the configuration when it is a `PosixConfig`, and the null
pointer for every configuration of another class, as well as for the null
pointer. -/
theorem make_from_config_variants {G P O : Type} :
    (∀ c : G,
      StorageBackend.make_from_config (some (StorageConfig.GCSConfig c : StorageConfig G P O))
        = some (BackendObject.GCSStorage c)) ∧
    (∀ c : P,
      StorageBackend.make_from_config (some (StorageConfig.PosixConfig c : StorageConfig G P O))
        = some (BackendObject.PosixStorage c)) ∧
    (∀ c : O,
      StorageBackend.make_from_config (some (StorageConfig.other c : StorageConfig G P O))
        = none) ∧
    StorageBackend.make_from_config (none : Option (StorageConfig G P O)) = none ∧
    (∀ config : Option (StorageConfig G P O),
      dynamic_cast_GCSConfig config = none → dynamic_cast_PosixConfig config = none →
      StorageBackend.make_from_config config = none) := by
  refine ⟨fun _ => rfl, fun _ => rfl, fun _ => rfl, rfl, ?_⟩
  intro config h1 h2
  simp [StorageBackend.make_from_config, h1, h2]

/-- C11, at configurations whose content is a string, and at a configuration
of a third class. -/
theorem make_from_config_variants_witness :
    StorageBackend.make_from_config
        (some (StorageConfig.GCSConfig "bucket" : StorageConfig String String Nat))
      = some (BackendObject.GCSStorage "bucket") ∧
    StorageBackend.make_from_config
        (some (StorageConfig.PosixConfig "/data" : StorageConfig String String Nat))
      = some (BackendObject.PosixStorage "/data") ∧
    dynamic_cast_GCSConfig (some (StorageConfig.other 3 : StorageConfig String String Nat))
      = none ∧
    dynamic_cast_PosixConfig (some (StorageConfig.other 3 : StorageConfig String String Nat))
      = none ∧
    StorageBackend.make_from_config
        (some (StorageConfig.other 3 : StorageConfig String String Nat)) = none :=
  ⟨make_from_config_variants.1 "bucket", make_from_config_variants.2.1 "/data", rfl, rfl,
   make_from_config_variants.2.2.2.2 _ rfl rfl⟩

/-! ## Exit on error -/

/-- C12: whatever distinct values the header gives the enumerators and
whatever non-zero value `EXIT_FAILURE` has, `exit_on_error` returns to its
caller exactly when its argument is `Success`. For each of the four other
result codes it writes the fatal line containing the label of the code and
leaves the process with the status `EXIT_FAILURE`, which is not zero. -/
theorem exit_on_error_returns_iff_success (value : StoreResult → Int)
    (hvalue : Function.Injective value) (EXIT_FAILURE : Nat) (hfail : EXIT_FAILURE ≠ 0) :
    (∀ r, exit_on_error value EXIT_FAILURE (value r) = ExitOutcome.returned
      ↔ r = StoreResult.Success) ∧
    (∀ r, r ≠ StoreResult.Success →
      ∃ status, status ≠ 0 ∧
        exit_on_error value EXIT_FAILURE (value r)
          = ExitOutcome.exited
              ("Exiting due to failed operation result: "
                ++ StoreResultToString value (value r) ++ ".") status) ∧
    exit_on_error value EXIT_FAILURE (value StoreResult.FileExists)
      = ExitOutcome.exited "Exiting due to failed operation result: FileExists."
          EXIT_FAILURE ∧
    exit_on_error value EXIT_FAILURE (value StoreResult.FileDoesNotExist)
      = ExitOutcome.exited "Exiting due to failed operation result: FileDoesNotExist."
          EXIT_FAILURE ∧
    exit_on_error value EXIT_FAILURE (value StoreResult.EndOfFile)
      = ExitOutcome.exited "Exiting due to failed operation result: EndOfFile."
          EXIT_FAILURE ∧
    exit_on_error value EXIT_FAILURE (value StoreResult.TransientFailure)
      = ExitOutcome.exited "Exiting due to failed operation result: TransientFailure."
          EXIT_FAILURE := by
  refine ⟨?_, ?_, ?_, ?_, ?_, ?_⟩
  · intro r
    constructor
    · intro h
      by_contra hne
      have hv : value r ≠ value StoreResult.Success := fun e => hne (hvalue e)
      simp [exit_on_error, hv] at h
    · rintro rfl
      simp [exit_on_error]
  · intro r hne
    have hv : value r ≠ value StoreResult.Success := fun e => hne (hvalue e)
    exact ⟨EXIT_FAILURE, hfail, by simp [exit_on_error, hv]⟩
  · simp [exit_on_error, StoreResultToString, hvalue.eq_iff]
  · simp [exit_on_error, StoreResultToString, hvalue.eq_iff]
  · simp [exit_on_error, StoreResultToString, hvalue.eq_iff]
  · simp [exit_on_error, StoreResultToString, hvalue.eq_iff]

/-- C12, with the enumerators numbered in declaration order and
`EXIT_FAILURE = 1`. -/
theorem exit_on_error_returns_iff_success_witness :
    Function.Injective StoreResult.declOrder ∧ (1 : Nat) ≠ 0 ∧
    (∀ r, exit_on_error StoreResult.declOrder 1 (StoreResult.declOrder r)
      = ExitOutcome.returned ↔ r = StoreResult.Success) ∧
    exit_on_error StoreResult.declOrder 1 3
      = ExitOutcome.exited "Exiting due to failed operation result: EndOfFile." 1 :=
  ⟨declOrder_injective, by decide,
   (exit_on_error_returns_iff_success StoreResult.declOrder declOrder_injective 1
      (by decide)).1,
   (exit_on_error_returns_iff_success StoreResult.declOrder declOrder_injective 1
      (by decide)).2.2.2.2.1⟩

/-! ## The append overload -/

/-- C13: for every handle, every state of it and every buffer `b`, the
overload `append(b)` is the raw `append` called with the length of `b` as
size and the bytes of `b` as data: same result code and same state of the
handle afterwards. On the handle that records the raw calls made on it, the
overload adds exactly one call, with that size and those bytes, and returns
the result of that call. -/
theorem append_vector_is_raw_append {σ : Type} (file : WriteFile σ) (s : σ) (b : List Byte) :
    file.append_vector s b = file.append s b.length b ∧
    (∀ calls, recordingFile.append_vector calls b
      = (StoreResult.Success, calls ++ [(b.length, b)])) ∧
    (recordingFile.append_vector [] b).2.length = 1 :=
  ⟨rfl, fun _ => rfl, rfl⟩

/-! ## Whole-file read: the assertion -/

/-- A result that `EXP_BACKOFF` passes on is not `TransientFailure`, and it
is the result of an evaluation of the wrapped expression. -/
theorem EXP_BACKOFF_returned {S β : Type} (expression : S → (StoreResult × β) × S)
    (name : String) (rand : Nat → Nat) (RAND_MAX : Nat) (fuel : Nat) (d : Int) (s : S)
    (t t' : Trace) (r : StoreResult) (x : β × S)
    (h : EXP_BACKOFF expression name rand RAND_MAX fuel d s t
      = some (Outcome.returned r x, t')) :
    r ≠ StoreResult.TransientFailure ∧ ∃ s₀, (expression s₀).1.1 = r := by
  induction fuel generalizing d s t with
  | zero => simp [EXP_BACKOFF] at h
  | succ n ih =>
    simp only [EXP_BACKOFF] at h
    split_ifs at h with h1 h2
    · exact ih _ _ _ h
    · simp at h
    · simp only [Option.some.injEq, Prod.mk.injEq, Outcome.returned.injEq] at h
      obtain ⟨⟨hr, -⟩, -⟩ := h
      exact ⟨hr ▸ h1, s, hr⟩

/-- The loop of `read_entire_file` never ends in a failed assertion when the
raw read only answers `Success`, `EndOfFile` or `TransientFailure`. -/
theorem read_entire_file_loop_no_assert {σ : Type} (file : RandomReadFile σ)
    (hres : ∀ s offset size mem dst,
      (file.read s offset size mem dst).1.1 = StoreResult.Success ∨
      (file.read s offset size mem dst).1.1 = StoreResult.EndOfFile ∨
      (file.read s offset size mem dst).1.1 = StoreResult.TransientFailure)
    (name : String) (rand : Nat → Nat) (RAND_MAX retry_fuel : Nat) :
    ∀ (fuel : Nat) (s : σ) (bytes : List Byte) (pos : Nat) (t t' : Trace),
      read_entire_file_loop file name rand RAND_MAX retry_fuel fuel s bytes pos t
        ≠ some (ReadOutcome.assert_failed, t') := by
  intro fuel
  induction fuel with
  | zero => intro s bytes pos t t'; simp [read_entire_file_loop]
  | succ n ih =>
    intro s bytes pos t t'
    cases hb : EXP_BACKOFF (read_chunk file pos bytes.length) name rand RAND_MAX retry_fuel 1
        (s, resize bytes ((bytes.length + READ_SIZE) % SIZE_MOD)) t with
    | none => simp [read_entire_file_loop, hb]
    | some v =>
      obtain ⟨out, t1⟩ := v
      cases out with
      | exited status => simp [read_entire_file_loop, hb]
      | returned result x =>
        obtain ⟨size_read, s', bytes'⟩ := x
        rw [read_entire_file_loop_succ _ _ _ _ _ _ _ _ _ _ _ _ _ _ _ hb]
        obtain ⟨hne, ⟨s₀, b₀⟩, hs₀⟩ := EXP_BACKOFF_returned _ _ _ _ _ _ _ _ _ _ _ hb
        have hr := hres s₀ pos READ_SIZE b₀ bytes.length
        have hs₀' : (file.read s₀ pos READ_SIZE b₀ bytes.length).1.1 = result := hs₀
        rw [hs₀'] at hr
        rcases hr with h | h | h
        · subst h
          simp only [true_or, if_true, reduceCtorEq, if_false]
          exact ih _ _ _ _ _
        · subst h
          simp
        · exact absurd h hne

theorem memFile_results (content : List Byte) (s : Unit) (offset size : Nat)
    (mem : List Byte) (dst : Nat) :
    ((memFile content).read s offset size mem dst).1.1 = StoreResult.Success ∨
    ((memFile content).read s offset size mem dst).1.1 = StoreResult.EndOfFile ∨
    ((memFile content).read s offset size mem dst).1.1 = StoreResult.TransientFailure := by
  by_cases h : offset + size ≤ content.length
  · left; simp [memFile, h]
  · right; left; simp [memFile, h]

/-- C14: when the raw read of the handle only ever answers `Success`,
`EndOfFile` or `TransientFailure`, no run of `read_entire_file`, and no run
of its loop from any state, ends in a failed assertion: `EXP_BACKOFF` never
passes `TransientFailure` on, so the asserted condition holds in every
iteration. Conversely, for any handle, a result other than `Success` and
`EndOfFile` that `EXP_BACKOFF` passes on ends the run in a failed assertion
in that same iteration, with nothing returned; this is so in particular when
the raw read answers `FileExists` or `FileDoesNotExist`. -/
theorem read_entire_file_assertion {σ : Type} (file : RandomReadFile σ) (name : String)
    (rand : Nat → Nat) (RAND_MAX retry_fuel : Nat) :
    ((∀ s offset size mem dst,
        (file.read s offset size mem dst).1.1 = StoreResult.Success ∨
        (file.read s offset size mem dst).1.1 = StoreResult.EndOfFile ∨
        (file.read s offset size mem dst).1.1 = StoreResult.TransientFailure) →
      (∀ fuel s pos t',
        read_entire_file fuel file s pos name rand RAND_MAX
          ≠ some (ReadOutcome.assert_failed, t')) ∧
      (∀ fuel s bytes pos t t',
        read_entire_file_loop file name rand RAND_MAX retry_fuel fuel s bytes pos t
          ≠ some (ReadOutcome.assert_failed, t'))) ∧
    (∀ fuel s bytes pos t t1 result size_read s' bytes',
      EXP_BACKOFF (read_chunk file pos bytes.length) name rand RAND_MAX retry_fuel 1
          (s, resize bytes ((bytes.length + READ_SIZE) % SIZE_MOD)) t
        = some (Outcome.returned result (size_read, (s', bytes')), t1) →
      result ≠ StoreResult.TransientFailure ∧
      (result ≠ StoreResult.Success → result ≠ StoreResult.EndOfFile →
        read_entire_file_loop file name rand RAND_MAX retry_fuel (fuel + 1) s bytes pos t
          = some (ReadOutcome.assert_failed, t1))) ∧
    (0 < retry_fuel → ∀ fuel s bytes pos t,
      (file.read s pos READ_SIZE (resize bytes ((bytes.length + READ_SIZE) % SIZE_MOD))
          bytes.length).1.1 ≠ StoreResult.Success →
      (file.read s pos READ_SIZE (resize bytes ((bytes.length + READ_SIZE) % SIZE_MOD))
          bytes.length).1.1 ≠ StoreResult.EndOfFile →
      (file.read s pos READ_SIZE (resize bytes ((bytes.length + READ_SIZE) % SIZE_MOD))
          bytes.length).1.1 ≠ StoreResult.TransientFailure →
      read_entire_file_loop file name rand RAND_MAX retry_fuel (fuel + 1) s bytes pos t
        = some (ReadOutcome.assert_failed, { t with calls := t.calls + 1 })) := by
  have conv : ∀ fuel s bytes pos t t1 result size_read s' bytes',
      EXP_BACKOFF (read_chunk file pos bytes.length) name rand RAND_MAX retry_fuel 1
          (s, resize bytes ((bytes.length + READ_SIZE) % SIZE_MOD)) t
        = some (Outcome.returned result (size_read, (s', bytes')), t1) →
      result ≠ StoreResult.Success → result ≠ StoreResult.EndOfFile →
      read_entire_file_loop file name rand RAND_MAX retry_fuel (fuel + 1) s bytes pos t
        = some (ReadOutcome.assert_failed, t1) := by
    intro fuel s bytes pos t t1 result size_read s' bytes' hb h1 h2
    rw [read_entire_file_loop_succ _ _ _ _ _ _ _ _ _ _ _ _ _ _ _ hb]
    simp [h1, h2]
  refine ⟨?_, ?_, ?_⟩
  · intro hres
    exact ⟨fun fuel s pos t' =>
        read_entire_file_loop_no_assert file hres name rand RAND_MAX fuel fuel s [] pos
          Trace.init t',
      read_entire_file_loop_no_assert file hres name rand RAND_MAX retry_fuel⟩
  · intro fuel s bytes pos t t1 result size_read s' bytes' hb
    exact ⟨(EXP_BACKOFF_returned _ _ _ _ _ _ _ _ _ _ _ hb).1,
      conv fuel s bytes pos t t1 result size_read s' bytes' hb⟩
  · intro hretry fuel s bytes pos t h1 h2 h3
    obtain ⟨m, rfl⟩ : ∃ m, retry_fuel = m + 1 := ⟨retry_fuel - 1, by omega⟩
    have hb := EXP_BACKOFF_first (read_chunk file pos bytes.length) name rand RAND_MAX m 1
      (s, resize bytes ((bytes.length + READ_SIZE) % SIZE_MOD)) t h3
    exact conv fuel s bytes pos t _ _ _ _ _ hb h1 h2

/-- C14, at the simulated handle over a two-byte file, and at a handle whose
raw read answers `FileDoesNotExist`. -/
theorem read_entire_file_assertion_witness :
    (∀ s offset size mem dst,
      ((memFile [1, 2]).read s offset size mem dst).1.1 = StoreResult.Success ∨
      ((memFile [1, 2]).read s offset size mem dst).1.1 = StoreResult.EndOfFile ∨
      ((memFile [1, 2]).read s offset size mem dst).1.1 = StoreResult.TransientFailure) ∧
    (∀ t', read_entire_file 1 (memFile [1, 2]) () 0 "a" someDraws RAND_MAX_glibc
      ≠ some (ReadOutcome.assert_failed, t')) ∧
    0 < 1 ∧
    read_entire_file 1 (constFile StoreResult.FileDoesNotExist) () 0 "a" someDraws
        RAND_MAX_glibc
      = some (ReadOutcome.assert_failed, { calls := 1, draws := 0, sleeps := [], log := [] }) :=
  ⟨memFile_results [1, 2],
   ((read_entire_file_assertion (memFile [1, 2]) "a" someDraws RAND_MAX_glibc 1).1
      (memFile_results [1, 2])).1 1 () 0,
   by decide,
   (read_entire_file_assertion (constFile StoreResult.FileDoesNotExist) "a" someDraws
      RAND_MAX_glibc 1).2.2 (by decide) 0 () [] 0 Trace.init (by simp [constFile])
      (by simp [constFile]) (by simp [constFile])⟩

/-! ## The two wrappers compared -/

/-- Two answer sequences with the same result codes drive the retry loop
through the same traces to the same outcome, up to the pointer returned. -/
theorem retryLoop_code_congr {α β : Type} (resp₁ : Nat → StoreResult × α)
    (resp₂ : Nat → StoreResult × β) (hsame : ∀ i, (resp₁ i).1 = (resp₂ i).1)
    (name : String) (rand : Nat → Nat) (RAND_MAX : Nat) (fuel : Nat) (d : Int) (t : Trace) :
    (retryLoop resp₁ name rand RAND_MAX fuel d t).map (fun x => (x.1.code, x.2))
      = (retryLoop resp₂ name rand RAND_MAX fuel d t).map (fun x => (x.1.code, x.2)) := by
  induction fuel generalizing d t with
  | zero => rfl
  | succ n ih =>
    simp only [retryLoop, ← hsame]
    split_ifs
    · exact ih _ _
    · rfl
    · rfl

/-- C15: run on backends whose file-creation calls answer the same sequence
of result codes, with the same name and the same draws,
`make_unique_random_read_file` and `make_unique_write_file` do the same
thing: the same number of backend calls, the same draws, the same sleep
times in the same order, the same log lines, and the same outcome, which is
the same result code returned or `exit(1)` in both. With at least seven
iterations allowed both runs end. -/
theorem wrappers_same_algorithm {R W R' W' : Type} (storage₁ : StorageBackend R W)
    (storage₂ : StorageBackend R' W') (name : String) (rand : Nat → Nat)
    (RAND_MAX fuel : Nat)
    (hsame : ∀ i, (storage₁.make_random_read_file name i).1
      = (storage₂.make_write_file name i).1) :
    (make_unique_random_read_file fuel storage₁ name rand RAND_MAX).map
        (fun x => (x.1.code, x.2))
      = (make_unique_write_file fuel storage₂ name rand RAND_MAX).map
        (fun x => (x.1.code, x.2)) ∧
    (7 ≤ fuel → ∃ o₁ o₂ t,
      make_unique_random_read_file fuel storage₁ name rand RAND_MAX = some (o₁, t) ∧
      make_unique_write_file fuel storage₂ name rand RAND_MAX = some (o₂, t) ∧
      o₁.code = o₂.code) := by
  have h := retryLoop_code_congr (storage₁.make_random_read_file name)
    (storage₂.make_write_file name) hsame name rand RAND_MAX fuel 1 Trace.init
  rw [← read_eq_retryLoop, ← write_eq_retryLoop] at h
  refine ⟨h, ?_⟩
  intro hfuel
  obtain ⟨k, -, -, -, hrun⟩ :=
    retryLoop_run (storage₁.make_random_read_file name) name rand RAND_MAX fuel hfuel
  rw [← read_eq_retryLoop] at hrun
  have h1 : ∃ o₁ t, make_unique_random_read_file fuel storage₁ name rand RAND_MAX
      = some (o₁, t) := by
    rcases hrun with hr | hr
    · exact ⟨_, _, hr.2⟩
    · exact ⟨_, _, hr.2.2⟩
  obtain ⟨o₁, t, h1⟩ := h1
  rw [h1] at h
  cases h2 : make_unique_write_file fuel storage₂ name rand RAND_MAX with
  | none => rw [h2] at h; simp at h
  | some v =>
    obtain ⟨o₂, t₂⟩ := v
    rw [h2] at h
    simp only [Option.map_some', Option.some.injEq, Prod.mk.injEq] at h
    obtain ⟨hc, ht⟩ := h
    subst ht
    exact ⟨o₁, o₂, t, h1, rfl, hc⟩

/-- C15, at the backend failing twice before it succeeds. -/
theorem wrappers_same_algorithm_witness :
    (∀ i, ((flakyBackend 2).make_random_read_file "a" i).1
      = ((flakyBackend 2).make_write_file "a" i).1) ∧
    7 ≤ 7 ∧
    ∃ o₁ o₂ t,
      make_unique_random_read_file 7 (flakyBackend 2) "a" someDraws RAND_MAX_glibc
        = some (o₁, t) ∧
      make_unique_write_file 7 (flakyBackend 2) "a" someDraws RAND_MAX_glibc
        = some (o₂, t) ∧
      o₁.code = o₂.code :=
  ⟨fun _ => rfl, by decide,
   (wrappers_same_algorithm (flakyBackend 2) (flakyBackend 2) "a" someDraws RAND_MAX_glibc 7
      (fun _ => rfl)).2 (by decide)⟩

/-! ## The debt invariant -/

/-- One iteration of the reference loop is one pass through its body. -/
theorem retryLoop_succ {α : Type} (resp : Nat → StoreResult × α) (name : String)
    (rand : Nat → Nat) (RAND_MAX : Nat) (fuel : Nat) (d : Int) (t : Trace) :
    retryLoop resp name rand RAND_MAX (fuel + 1) d t
      = match retryStep resp name rand RAND_MAX d t with
        | Sum.inl x => retryLoop resp name rand RAND_MAX fuel x.1 x.2
        | Sum.inr o => some o := by
  simp only [retryLoop, retryStep]
  split_ifs <;> rfl

/-- A pass through the body that leads back to the loop head was made on a
transient failure with the debt below 64, and doubled the debt. -/
theorem retryStep_again {α : Type} (resp : Nat → StoreResult × α) (name : String)
    (rand : Nat → Nat) (RAND_MAX : Nat) (d d' : Int) (t t' : Trace)
    (h : retryStep resp name rand RAND_MAX d t = Sum.inl (d', t')) :
    (resp t.calls).1 = StoreResult.TransientFailure ∧ d < 64 ∧ d' = d * 2 ∧
    t' = { calls := t.calls + 1, draws := t.draws + 1,
           sleeps := t.sleeps ++ [(d : ℚ) + (rand t.draws : ℚ) / (RAND_MAX : ℚ)],
           log := t.log ++
             [LogLine.warning name ((d : ℚ) + (rand t.draws : ℚ) / (RAND_MAX : ℚ))] } := by
  simp only [retryStep] at h
  split_ifs at h with h1 h2
  · simp only [Sum.inl.injEq, Prod.mk.injEq] at h
    exact ⟨h1, h2, h.1.symm, h.2.symm⟩

/-- Every state at the loop head is the state after `k ≤ 6` transient
failures, with debt `2 ^ k`. -/
theorem loopHead_shape {α : Type} (resp : Nat → StoreResult × α) (name : String)
    (rand : Nat → Nat) (RAND_MAX : Nat) (d : Int) (t : Trace)
    (h : LoopHead resp name rand RAND_MAX d t) :
    ∃ k, k ≤ 6 ∧ d = 2 ^ k ∧ t = afterFailures name rand RAND_MAX k ∧
      ∀ i, i < k → (resp i).1 = StoreResult.TransientFailure := by
  induction h with
  | start => exact ⟨0, by omega, by norm_num, by simp [afterFailures, sleepSeq, Trace.init],
      fun i hi => absurd hi (Nat.not_lt_zero i)⟩
  | again _ hstep ih =>
    obtain ⟨k, hk, rfl, rfl, hfail⟩ := ih
    obtain ⟨hres, hlt, hd, ht⟩ := retryStep_again _ _ _ _ _ _ _ _ hstep
    have hk5 : k ≤ 5 := by
      by_contra hc
      have hk6 : k = 6 := by omega
      rw [hk6] at hlt
      norm_num at hlt
    refine ⟨k + 1, by omega, ?_, ?_, ?_⟩
    · rw [hd]; ring
    · rw [ht]
      simp [afterFailures, sleepSeq_succ, jitter]
    · intro i hi
      rcases Nat.lt_succ_iff_lt_or_eq.mp hi with h1 | h1
      · exact hfail i h1
      · rw [h1]; exact hres

/-- What holds in every state at the loop head. -/
theorem loopHead_invariant {α : Type} (resp : Nat → StoreResult × α) (name : String)
    (rand : Nat → Nat) (RAND_MAX : Nat) (d : Int) (t : Trace)
    (h : LoopHead resp name rand RAND_MAX d t) :
    d ∈ ([1, 2, 4, 8, 16, 32, 64] : List Int) ∧ 1 ≤ d ∧ d ≤ 64 ∧
    (∀ fuel, retryLoop resp name rand RAND_MAX (fuel + t.calls) 1 Trace.init
      = retryLoop resp name rand RAND_MAX fuel d t) ∧
    (∀ d' t', retryStep resp name rand RAND_MAX d t = Sum.inl (d', t') →
      (resp t.calls).1 = StoreResult.TransientFailure ∧ d < 64 ∧ d' = d * 2 ∧ d' ≤ 64) := by
  obtain ⟨k, hk, rfl, rfl, hfail⟩ := loopHead_shape resp name rand RAND_MAX d t h
  have hmem : (2 : Int) ^ k ∈ ([1, 2, 4, 8, 16, 32, 64] : List Int) ∧ (1 : Int) ≤ 2 ^ k ∧
      (2 : Int) ^ k ≤ 64 := by
    interval_cases k <;> simp
  refine ⟨hmem.1, hmem.2.1, hmem.2.2, ?_, ?_⟩
  · intro fuel
    exact retryLoop_failures resp name rand RAND_MAX k hk hfail fuel
  · intro d' t' hstep
    obtain ⟨hres, hlt, hd, -⟩ := retryStep_again _ _ _ _ _ _ _ _ hstep
    refine ⟨hres, hlt, hd, ?_⟩
    rw [hd]
    have hk5 : k ≤ 5 := by
      by_contra hc
      have hk6 : k = 6 := by omega
      rw [hk6] at hlt
      norm_num at hlt
    interval_cases k <;> norm_num

/-- C16: in each wrapper the loop is first entered with debt 1, and every
iteration of the loop is one pass through its body from the state at the
loop head. In every state in which the loop head can be reached, the debt is
one of 1, 2, 4, 8, 16, 32, 64, so it never exceeds 64 and the `int` cannot
overflow; the state is the one the run is in after as many iterations as
backend calls were made; and the only passes through the body that change the
debt are those made on a transient failure with the debt below 64, which
double it to a value that is again at most 64. -/
theorem debt_invariant {R W : Type} (storage : StorageBackend R W) (name : String)
    (rand : Nat → Nat) (RAND_MAX : Nat) :
    (LoopHead (storage.make_random_read_file name) name rand RAND_MAX 1 Trace.init ∧
      (∀ fuel, make_unique_random_read_file fuel storage name rand RAND_MAX
        = make_unique_random_read_file_loop storage name rand RAND_MAX fuel 1 Trace.init) ∧
      (∀ fuel d t,
        make_unique_random_read_file_loop storage name rand RAND_MAX (fuel + 1) d t
          = match retryStep (storage.make_random_read_file name) name rand RAND_MAX d t with
            | Sum.inl x =>
              make_unique_random_read_file_loop storage name rand RAND_MAX fuel x.1 x.2
            | Sum.inr o => some o) ∧
      ∀ d t, LoopHead (storage.make_random_read_file name) name rand RAND_MAX d t →
        d ∈ ([1, 2, 4, 8, 16, 32, 64] : List Int) ∧ 1 ≤ d ∧ d ≤ 64 ∧
        (∀ fuel, make_unique_random_read_file (fuel + t.calls) storage name rand RAND_MAX
          = make_unique_random_read_file_loop storage name rand RAND_MAX fuel d t) ∧
        (∀ d' t',
          retryStep (storage.make_random_read_file name) name rand RAND_MAX d t
            = Sum.inl (d', t') →
          (storage.make_random_read_file name t.calls).1 = StoreResult.TransientFailure ∧
          d < 64 ∧ d' = d * 2 ∧ d' ≤ 64)) ∧
    (LoopHead (storage.make_write_file name) name rand RAND_MAX 1 Trace.init ∧
      (∀ fuel, make_unique_write_file fuel storage name rand RAND_MAX
        = make_unique_write_file_loop storage name rand RAND_MAX fuel 1 Trace.init) ∧
      (∀ fuel d t,
        make_unique_write_file_loop storage name rand RAND_MAX (fuel + 1) d t
          = match retryStep (storage.make_write_file name) name rand RAND_MAX d t with
            | Sum.inl x => make_unique_write_file_loop storage name rand RAND_MAX fuel x.1 x.2
            | Sum.inr o => some o) ∧
      ∀ d t, LoopHead (storage.make_write_file name) name rand RAND_MAX d t →
        d ∈ ([1, 2, 4, 8, 16, 32, 64] : List Int) ∧ 1 ≤ d ∧ d ≤ 64 ∧
        (∀ fuel, make_unique_write_file (fuel + t.calls) storage name rand RAND_MAX
          = make_unique_write_file_loop storage name rand RAND_MAX fuel d t) ∧
        (∀ d' t',
          retryStep (storage.make_write_file name) name rand RAND_MAX d t
            = Sum.inl (d', t') →
          (storage.make_write_file name t.calls).1 = StoreResult.TransientFailure ∧
          d < 64 ∧ d' = d * 2 ∧ d' ≤ 64)) := by
  refine ⟨⟨LoopHead.start, fun _ => rfl, ?_, ?_⟩, ⟨LoopHead.start, fun _ => rfl, ?_, ?_⟩⟩
  · intro fuel d t
    simp only [read_loop_eq_retryLoop]
    exact retryLoop_succ _ _ _ _ _ _ _
  · intro d t h
    simp only [read_eq_retryLoop, read_loop_eq_retryLoop]
    exact loopHead_invariant _ _ _ _ _ _ h
  · intro fuel d t
    simp only [write_loop_eq_retryLoop]
    exact retryLoop_succ _ _ _ _ _ _ _
  · intro d t h
    simp only [write_eq_retryLoop, write_loop_eq_retryLoop]
    exact loopHead_invariant _ _ _ _ _ _ h

/-- C16, at the state reached after one transient failure of the backend
failing three times. -/
theorem debt_invariant_witness :
    ∃ t, LoopHead ((flakyBackend 3).make_random_read_file "a") "a" someDraws RAND_MAX_glibc
        2 t ∧
      t.calls = 1 ∧
      (2 : Int) ∈ ([1, 2, 4, 8, 16, 32, 64] : List Int) ∧ (1 : Int) ≤ 2 ∧ (2 : Int) ≤ 64 ∧
      ∀ fuel, make_unique_random_read_file (fuel + t.calls) (flakyBackend 3) "a" someDraws
          RAND_MAX_glibc
        = make_unique_random_read_file_loop (flakyBackend 3) "a" someDraws RAND_MAX_glibc
            fuel 2 t :=
  have h : LoopHead ((flakyBackend 3).make_random_read_file "a") "a" someDraws RAND_MAX_glibc
      (1 * 2) _ := LoopHead.again LoopHead.start rfl
  have hinv := (debt_invariant (flakyBackend 3) "a" someDraws RAND_MAX_glibc).1.2.2.2 _ _ h
  ⟨_, h, rfl, hinv.1, hinv.2.1, hinv.2.2.1, hinv.2.2.2.1⟩

/-! ## The retry budget -/

/-- The sleep times of `k` consecutive failures add up to at most
`2 ^ k - 1` plus one unit of jitter per sleep. -/
theorem sleepSeq_sum_le (rand : Nat → Nat) (RAND_MAX : Nat)
    (hrand : ∀ i, rand i ≤ RAND_MAX) (k : Nat) :
    (sleepSeq rand RAND_MAX k).sum ≤ (2 : ℚ) ^ k - 1 + k := by
  induction k with
  | zero => simp [sleepSeq]
  | succ k ih =>
    have hj := jitter_le_one rand RAND_MAX hrand k
    rw [sleepSeq_succ, List.sum_append, List.sum_singleton, pow_succ]
    push_cast
    linarith

/-- C17: whatever the backend answers and whatever the draws within
`0 .. RAND_MAX`, a run of either wrapper allowed at least seven iterations
ends after at most 7 backend calls and at most 6 sleeps, and its sleep times
add up to at most `1 + 2 + 4 + 8 + 16 + 32` plus 6, that is 69 seconds. -/
theorem retry_budget {R W : Type} (storage : StorageBackend R W) (name : String)
    (rand : Nat → Nat) (RAND_MAX fuel : Nat) (hfuel : 7 ≤ fuel)
    (hrand : ∀ i, rand i ≤ RAND_MAX) :
    (∃ out t, make_unique_random_read_file fuel storage name rand RAND_MAX = some (out, t) ∧
      t.calls ≤ 7 ∧ t.sleeps.length ≤ 6 ∧
      t.sleeps.sum ≤ (1 + 2 + 4 + 8 + 16 + 32) + 6 ∧ t.sleeps.sum ≤ 69) ∧
    (∃ out t, make_unique_write_file fuel storage name rand RAND_MAX = some (out, t) ∧
      t.calls ≤ 7 ∧ t.sleeps.length ≤ 6 ∧
      t.sleeps.sum ≤ (1 + 2 + 4 + 8 + 16 + 32) + 6 ∧ t.sleeps.sum ≤ 69) := by
  have gen : ∀ {α : Type} (resp : Nat → StoreResult × α),
      ∃ out t, retryLoop resp name rand RAND_MAX fuel 1 Trace.init = some (out, t) ∧
        t.calls ≤ 7 ∧ t.sleeps.length ≤ 6 ∧
        t.sleeps.sum ≤ (1 + 2 + 4 + 8 + 16 + 32) + 6 ∧ t.sleeps.sum ≤ 69 := by
    intro α resp
    obtain ⟨k, hk, -, -, hrun⟩ := retryLoop_run resp name rand RAND_MAX fuel hfuel
    have hsum : (sleepSeq rand RAND_MAX k).sum ≤ 69 := by
      have h := sleepSeq_sum_le rand RAND_MAX hrand k
      have hb : (2 : ℚ) ^ k - 1 + k ≤ 69 := by
        interval_cases k <;> norm_num
      linarith
    have hsum' : (sleepSeq rand RAND_MAX k).sum ≤ (1 + 2 + 4 + 8 + 16 + 32) + 6 := by
      norm_num
      exact hsum
    have hlen : (sleepSeq rand RAND_MAX k).length ≤ 6 := by
      rw [sleepSeq_length]; exact hk
    rcases hrun with h | h
    · exact ⟨_, _, h.2, by simp only; omega, hlen, hsum', hsum⟩
    · exact ⟨_, _, h.2.2, by simp only; omega, hlen, hsum', hsum⟩
  constructor
  · rw [read_eq_retryLoop]; exact gen _
  · rw [write_eq_retryLoop]; exact gen _

/-- C17, at a backend that always fails transiently, with every draw equal
to `RAND_MAX`. -/
theorem retry_budget_witness :
    7 ≤ 7 ∧ (∀ i, maxDraws i ≤ RAND_MAX_glibc) ∧
    ∃ out t, make_unique_random_read_file 7 (constBackend StoreResult.TransientFailure) "a"
        maxDraws RAND_MAX_glibc = some (out, t) ∧
      t.calls ≤ 7 ∧ t.sleeps.length ≤ 6 ∧
      t.sleeps.sum ≤ (1 + 2 + 4 + 8 + 16 + 32) + 6 ∧ t.sleeps.sum ≤ 69 :=
  ⟨by decide, fun _ => le_refl _,
   (retry_budget (constBackend StoreResult.TransientFailure) "a" maxDraws RAND_MAX_glibc 7
      (by decide) (fun _ => le_refl _)).1⟩

/-! ## Whole-file read: the reads made -/

end storehouse
